import Mathlib

/-
Verification development for the gographql type-graph compiler
(src/gographql.go).  The Go code is shallowly embedded: reflection kinds
and Go types become inductive types, the typeMapper state becomes an
explicit state record threaded through each function, and the mutable
graphql object values (which Go holds by pointer) live in an explicit
heap addressed by numeric ids, so that aliasing between registry entries
and field types is modelled faithfully.  Recursion is driven by a fuel
parameter so every definition is structural and kernel-evaluable; fuel
exhaustion is a distinguished error that the termination theorems prove
unreachable for sufficiently large fuel.
-/

namespace GoGraphql

/-- Strings are modelled as character lists for ease of proof. -/
abbrev Str := List Char

/-- Conversion from Lean string literals to the model's string type. -/
def s2l (s : String) : Str := s.data

/-- Go reflection kinds (reflect.Kind), as consumed by the translator. -/
inductive GoKind
  | bool | int | int8 | int16 | int32 | int64
  | uint | uint8 | uint16 | uint32 | uint64 | uintptr
  | float32 | float64 | complex64 | complex128
  | array | chan | func | map | ptr | slice | string
  | struct | interface | invalid
  deriving DecidableEq, Repr

/-- Go types as far as the translator inspects them.  A struct type is
referenced by name; its fields are found in the environment (mirroring
reflect.Type, which carries its own field list).  `timeTime` and
`objectID` are the two special-cased concrete types (time.Time,
primitive.ObjectID).  `ifaceT` carries the interface's method count and
the first method's return type (Type.Method(0).Type.Out(0)), the only
reflection data faceToAny mentions; `firstOut` is meaningful only when
`numMethods > 0`. -/
inductive GoTy
  | prim (k : GoKind)
  | structT (name : Str)
  | sliceOf (elem : GoTy)
  | ptrTo (elem : GoTy)
  | ifaceT (numMethods : Nat) (firstOut : GoTy)
  | timeTime
  | objectID
  deriving DecidableEq, Repr

/-- reflect.Type.Kind() for the modelled types. -/
def GoTy.kind : GoTy → GoKind
  | .prim k => k
  | .structT _ => .struct
  | .sliceOf _ => .slice
  | .ptrTo _ => .ptr
  | .ifaceT _ _ => .interface
  | .timeTime => .struct
  | .objectID => .array

/-- reflect.Type.Elem() (only consulted under ptr/slice kinds). -/
def GoTy.elem : GoTy → GoTy
  | .sliceOf e => e
  | .ptrTo e => e
  | t => t

/-- reflect.Type.Name() (only consulted on struct kinds). -/
def GoTy.structName : GoTy → Str
  | .structT n => n
  | .timeTime => s2l ("Time")
  | _ => []

/-- reflect.Type.NumMethod() as consulted by faceToAny. -/
def GoTy.numMethodsOf : GoTy → Nat
  | .ifaceT n _ => n
  | _ => 0

/-- Type.Method(0).Type.Out(0) for the (disabled) interface heuristic. -/
def GoTy.firstMethodOut : GoTy → GoTy
  | .ifaceT _ o => o
  | _ => .prim .invalid

/-- Names of reflect kinds, used for reflect.Type.String renderings. -/
def GoKind.render : GoKind → Str
  | .bool => s2l ("bool")
  | .int => s2l ("int")
  | .int8 => s2l ("int8")
  | .int16 => s2l ("int16")
  | .int32 => s2l ("int32")
  | .int64 => s2l ("int64")
  | .uint => s2l ("uint")
  | .uint8 => s2l ("uint8")
  | .uint16 => s2l ("uint16")
  | .uint32 => s2l ("uint32")
  | .uint64 => s2l ("uint64")
  | .uintptr => s2l ("uintptr")
  | .float32 => s2l ("float32")
  | .float64 => s2l ("float64")
  | .complex64 => s2l ("complex64")
  | .complex128 => s2l ("complex128")
  | .array => s2l ("array")
  | .chan => s2l ("chan")
  | .func => s2l ("func")
  | .map => s2l ("map")
  | .ptr => s2l ("ptr")
  | .slice => s2l ("slice")
  | .string => s2l ("string")
  | .struct => s2l ("struct")
  | .interface => s2l ("interface")
  | .invalid => s2l ("invalid")

/-- reflect.Type.String() rendering of a field's declared type, as fed to
strings.Split(_, ".") on lines 500-502.  Package qualifiers are
abstracted as the fixed package "p": only the component after the first
dot is ever consumed, and only as an input to the caller-supplied
FieldResolverFinder hook. -/
def GoTy.render : GoTy → Str
  | .prim k => k.render
  | .structT n => s2l ("p.") ++ n
  | .sliceOf e => s2l ("[]") ++ e.render
  | .ptrTo e => s2l ("*") ++ e.render
  | .ifaceT _ _ => s2l ("p.interface")
  | .timeTime => s2l ("time.Time")
  | .objectID => s2l ("primitive.ObjectID")

/-- A struct field together with the tag values the translator reads
(Tag.Get returns "" for an absent key). -/
structure StructField where
  name : Str
  ty : GoTy
  tagRequired : Str
  tagDescription : Str
  tagReplace : Str
  deriving DecidableEq, Repr

/-- The two target modes (const graphqlOutput / graphqlInput). -/
inductive TargetType
  | output
  | input
  deriving DecidableEq, Repr

/-- Compiled graphql types.  Objects and input objects are heap values
referenced by id (Go holds them by pointer); scalars are immutable and
identified by name; List/NonNull are transient wrappers. -/
inductive GType
  | scalar (name : Str)
  | ref (id : Nat)
  | list (ofType : GType)
  | nonNull (ofType : GType)
  deriving DecidableEq, Repr

/-- A field definition of a compiled object.  Output fields
(graphql.Field) use name/description/resolve/deprecationReason; input
fields (graphql.InputObjectFieldConfig) use type/defaultValue/description
and leave the rest at their zero values.  Args, never set by the
translator except to the empty map, is omitted. -/
structure GField where
  name : Str
  type : GType
  description : Str
  resolve : Option Str
  deprecationReason : Str
  defaultValue : Option Str
  deriving DecidableEq, Repr

/-- A heap object: a graphql.Object or graphql.InputObject.  The `isStub`
flag is ghost state marking objects manufactured by the stub branch; no
executable definition consults it. -/
structure HObj where
  name : Str
  isInput : Bool
  isStub : Bool
  fields : List (Str × GField)
  deriving DecidableEq, Repr

abbrev Heap := List (Nat × HObj)

/-- Association-list lookup (Go map read). -/
def lookupA {α : Type} [DecidableEq α] {β : Type} : List (α × β) → α → Option β
  | [], _ => none
  | (k, v) :: rest, key => if k = key then some v else lookupA rest key

/-- Association-list insert, replacing an existing binding (Go map write). -/
def insertA {α : Type} [DecidableEq α] {β : Type} : List (α × β) → α → β → List (α × β)
  | [], key, v => [(key, v)]
  | (k, w) :: rest, key, v =>
      if k = key then (key, v) :: rest else (k, w) :: insertA rest key v

/-- Association-list delete (Go map delete). -/
def removeA {α : Type} [DecidableEq α] {β : Type} : List (α × β) → α → List (α × β)
  | [], _ => []
  | (k, w) :: rest, key =>
      if k = key then removeA rest key else (k, w) :: removeA rest key

/-- The typeMapper state (struct typeMapper, lines 185-192), extended
with the explicit heap of allocated objects. -/
structure TM where
  heap : Heap
  nextId : Nat
  graphqlTypes : List (Str × GType)
  parentTypes : List Str
  level : Nat
  targetType : TargetType
  deriving DecidableEq, Repr

/-- The ambient environment: the program's struct declarations plus the
two caller-supplied hooks (TypeReplacer.GetType; the default returns
none, FieldResolverFinder.GetResolver; the default returns none). -/
structure Env where
  structs : List (Str × List StructField)
  typeReplacer : Str → Option GoTy
  resolverFinder : Str → Str → Option Str

/-- reflect field list of a struct type (reflect.Type.NumField/Field). -/
def fieldsOf (env : Env) : GoTy → List StructField
  | .structT n => (lookupA env.structs n).getD []
  | _ => []

/-- Errors returned by the translator.  `outOfFuel` is a model artifact
marking exhaustion of the fuel parameter. -/
inductive CompErr
  | outOfFuel
  | nilInput
  | notStruct
  | emptyName
  | emptyRecord (name : Str)
  | typeNotFound (name : Str)
  | wrongType
  deriving DecidableEq, Repr

abbrev Res := Except CompErr GType × TM

/- Built-in scalars (graphql and package-level scalar values). -/
def Boolean : GType := .scalar (s2l ("Boolean"))
def GInt : GType := .scalar (s2l ("Int"))
def Int64 : GType := .scalar (s2l ("Int64"))
def Uint64 : GType := .scalar (s2l ("Uint64"))
def GFloat : GType := .scalar (s2l ("Float"))
def GString : GType := .scalar (s2l ("String"))
def DateTime : GType := .scalar (s2l ("DateTime"))
def Any : GType := .scalar (s2l ("Any"))
def ObjectID : GType := .scalar (s2l ("ObjectID"))

/-- kindToGraphqlScalar (lines 630-687).  The Go function's error result
is never assigned; the second component mirrors that always-nil error. -/
def kindToGraphqlScalar (kind : GoKind) (_fieldName : Str) : GType × Option CompErr :=
  match kind with
  | .bool => (Boolean, none)
  | .int => (GInt, none)
  | .int8 => (GInt, none)
  | .int16 => (GInt, none)
  | .int32 => (GInt, none)
  | .int64 => (Int64, none)
  | .uint => (GInt, none)
  | .uint8 => (GInt, none)
  | .uint16 => (GInt, none)
  | .uint32 => (GInt, none)
  | .uint64 => (Uint64, none)
  | .float32 => (GFloat, none)
  | .float64 => (GFloat, none)
  | .string => (GString, none)
  | _ => (GString, none)

/-- Whether kindToGraphqlScalar takes its default branch, which logs the
"Don't know how to map Go kind" diagnostic (lines 681-684). -/
def kindToGraphqlScalarWarns (kind : GoKind) : Bool :=
  match kind with
  | .bool | .int | .int8 | .int16 | .int32 | .int64
  | .uint | .uint8 | .uint16 | .uint32 | .uint64
  | .float32 | .float64 | .string => false
  | _ => true


/-- Whether `pat` is a prefix of `s`. -/
def isPrefixStr : Str → Str → Bool
  | [], _ => true
  | _ :: _, [] => false
  | a :: as, b :: bs => a == b && isPrefixStr as bs

/-- Whether `pat` occurs as a substring of `s`. -/
def containsSub (s pat : Str) : Bool :=
  match s with
  | [] => isPrefixStr pat []
  | _ :: rest => isPrefixStr pat s || containsSub rest pat

/-- FindStringSubmatch of the regexp `(.*)Stub` (reStub, line 169): the
greedy leftmost match captures everything before the LAST occurrence of
"Stub"; returns none when "Stub" does not occur. -/
def findStub : Str → Option Str
  | [] => none
  | c :: rest =>
      match findStub rest with
      | some p => some (c :: p)
      | none => if isPrefixStr (s2l ("Stub")) (c :: rest) then some [] else none

/-- Whether the regexp `\[(.*)Stub\]` (reList, line 170) matches: some
occurrence of '[' is followed, strictly later, by "Stub]". -/
def reListMatches : Str → Bool
  | [] => false
  | c :: rest =>
      (c == '[' && containsSub rest (s2l ("Stub]"))) || reListMatches rest

/-- Whether the regexp `(.*)Stub\!` (RENonNull, line 171) matches:
"Stub!" occurs as a substring. -/
def reNonNullMatches (s : Str) : Bool :=
  containsSub s (s2l ("Stub!"))

/-- graphql type String() rendering (fmt "%v"): an object or input object
prints its name, a scalar its name, a List "[elem]", a NonNull "elem!"
(graphql-go List.String/NonNull.String). -/
def strIn (h : Heap) : GType → Str
  | .scalar n => n
  | .ref id => (match lookupA h id with | some o => o.name | none => [])
  | .list t => '[' :: (strIn h t ++ [']'])
  | .nonNull t => strIn h t ++ ['!']

/-- graphql type Name(): objects/input objects/scalars return their name,
a List returns its element's String() (graphql-go List.Name), a NonNull
its element's String() followed by "!" (graphql-go NonNull.Name). -/
def nameIn (h : Heap) : GType → Str
  | .scalar n => n
  | .ref id => (match lookupA h id with | some o => o.name | none => [])
  | .list t => strIn h t
  | .nonNull t => strIn h t ++ ['!']

/-- getType (lines 329-345): look the stripped name up in the registry;
failure is an error; then re-apply List and/or NonNull wrapping according
to which of the two regexps match the stub reference's rendering. -/
def getType (registry : List (Str × GType)) (typeName kindName : Str) :
    Except CompErr GType :=
  match lookupA registry typeName with
  | none => .error (.typeNotFound typeName)
  | some fieldType0 =>
      let fieldType1 := if reListMatches kindName then GType.list fieldType0 else fieldType0
      let fieldType2 := if reNonNullMatches kindName then GType.nonNull fieldType1 else fieldType1
      .ok fieldType2

/-- One field of the deferred patch pass (defer body, lines 425-454 for
objects and 455-482 for input objects): a field whose type Name()
matches reStub is deleted; getType failure leaves it deleted (after a
logged warning); success re-adds a field with the resolved type,
preserving description, resolver and deprecation metadata (output) or
default value and description (input). -/
def patchField (registry : List (Str × GType)) (h : Heap) (isInput : Bool)
    (cur : List (Str × GField)) (fieldKey : Str) (fieldDef : GField) :
    List (Str × GField) :=
  let stubbedTypeName := nameIn h fieldDef.type
  match findStub stubbedTypeName with
  | none => cur
  | some typeName =>
      let cur1 := removeA cur fieldKey
      let kindName := strIn h fieldDef.type
      match getType registry typeName kindName with
      | .error _ => cur1
      | .ok fieldType =>
          if isInput then
            insertA cur1 fieldKey
              { name := fieldKey, type := fieldType, description := fieldDef.description,
                resolve := none, deprecationReason := [],
                defaultValue := fieldDef.defaultValue }
          else
            insertA cur1 fieldKey
              { name := fieldKey, type := fieldType, description := fieldDef.description,
                resolve := fieldDef.resolve,
                deprecationReason := fieldDef.deprecationReason, defaultValue := none }

/-- The patch pass over one registered object: iterate the object's
fields (snapshot) applying patchField to the current field map. -/
def patchObj (registry : List (Str × GType)) (h : Heap) (obj : HObj) : HObj :=
  { obj with fields :=
      (obj.fields.foldl (fun cur kv => patchField registry h obj.isInput cur kv.1 kv.2)
        obj.fields) }

/-- One registry entry of the deferred patch pass: objects and input
objects (registry values are references) get their fields patched in
place; other values are skipped by the type switch. -/
def patchStep (registry : List (Str × GType)) (h : Heap) (kv : Str × GType) : Heap :=
  match kv.2 with
  | GType.ref id =>
      (match lookupA h id with
       | some obj => insertA h id (patchObj registry h obj)
       | none => h)
  | _ => h

/-- The whole deferred patch pass (defer body, lines 421-485): for every
registry entry that is an object or input object, patch its fields in
place.  Only the heap changes; the registry itself is not modified. -/
def patchAll (s : TM) : TM :=
  { s with heap := s.graphqlTypes.foldl (patchStep s.graphqlTypes) s.heap }

/-- The unwind portion of the deferred func (lines 418-487): drop the
name from the in-progress set, decrement the nesting level, and at level
zero run the patch pass and clear the in-progress set. -/
def unwindStage (s : TM) (structureName : Str) : TM :=
  let s1 := { s with parentTypes := s.parentTypes.filter (fun n => !(n == structureName)),
                     level := s.level - 1 }
  if s1.level == 0 then
    let s2 := patchAll s1
    { s2 with parentTypes := [] }
  else s1

/-- strings.Split on '.' (line 500). -/
def splitDot : Str → List Str
  | [] => [[]]
  | c :: rest =>
      if c == '.' then [] :: splitDot rest
      else
        match splitDot rest with
        | w :: ws => (c :: w) :: ws
        | [] => [[c]]

/-- The fieldType short name of lines 499-502: the second
dot-separated component of the declared type's String(), or "" when the
rendering has no dot. -/
def shortTypeName (t : GoTy) : Str :=
  match splitDot t.render with
  | _ :: w :: _ => w
  | _ => []

/-- faceToAny (lines 616-628).  The method-0 heuristic is kept in the
shape the source has it, guarded by the constant-false condition
`true == false`, so every call falls through to the Any scalar. -/
def faceToAnyAux (recurse : TM → Option GoTy → Res) (s : TM) (t : GoTy) : Res :=
  let methodCount := t.numMethodsOf
  if (true == false) && !(methodCount == 0) then
    recurse s (some t.firstMethodOut)
  else
    (.ok Any, s)

/-- goFieldToGraphqlType (lines 541-614), parametrised by the recursive
entry point `recurse` (tm.goToGraphqlType). -/
def goFieldToGraphqlTypeAux (env : Env) (recurse : TM → Option GoTy → Res)
    (s : TM) (f : StructField) : Res :=
  let structFieldType0 := f.ty
  let structFieldType := if structFieldType0.kind == .ptr then structFieldType0.elem
                         else structFieldType0
  let substituted := env.typeReplacer f.tagReplace
  let t := match substituted with
           | some st => st
           | none => structFieldType
  if t == GoTy.objectID then (.ok ObjectID, s)
  else if t == GoTy.timeTime then (.ok DateTime, s)
  else
    match structFieldType.kind with
    | .struct =>
        (match substituted with
         | some st => recurse s (some st)
         | none => recurse s (some structFieldType))
    | .slice =>
        let elemT0 := structFieldType.elem
        let elemT := match substituted with
                     | some st => st
                     | none => elemT0
        (match elemT.kind with
         | .struct =>
             (match recurse s (some elemT) with
              | (.ok out, s1) => (.ok (GType.list out), s1)
              | (.error e, s1) => (.error e, s1))
         | .interface =>
             (match faceToAnyAux recurse s elemT with
              | (.ok out, s1) => (.ok (GType.list out), s1)
              | (.error e, s1) => (.error e, s1))
         | k =>
             (match kindToGraphqlScalar k f.name with
              | (out, none) => (.ok (GType.list out), s)
              | (_, some e) => (.error e, s)))
    | .interface =>
        let t2 := match substituted with
                  | some st => st
                  | none => structFieldType
        faceToAnyAux recurse s t2
    | _ =>
        let t2 := match substituted with
                  | some st => st
                  | none => structFieldType
        (match kindToGraphqlScalar t2.kind f.name with
         | (out, none) => (.ok out, s)
         | (_, some e) => (.error e, s))

/-- The per-field body of the marshalling loop (lines 490-524): classify
the field; on error skip it (the error is absorbed); on success apply
the required/ptr NonNull wrap, then insert the field definition into the
accumulated field map (output fields consult the resolver finder; input
fields do not). -/
def marshalField (env : Env) (classify : TM → StructField → Res)
    (acc : List (Str × GField) × TM) (f : StructField) :
    List (Str × GField) × TM :=
  match classify acc.2 f with
  | (.error _, s1) => (acc.1, s1)
  | (.ok gft0, s1) =>
      let fieldType := shortTypeName f.ty
      let gft := if f.tagRequired == s2l ("true") && f.ty.kind == .ptr then
                   GType.nonNull gft0
                 else gft0
      let substituteTypeName := f.tagReplace
      let description := f.tagDescription
      match s1.targetType with
      | .output =>
          (insertA acc.1 f.name
             { name := f.name, type := gft, description := description,
               resolve := env.resolverFinder fieldType substituteTypeName,
               deprecationReason := [], defaultValue := none }, s1)
      | .input =>
          (insertA acc.1 f.name
             { name := f.name, type := gft, description := description,
               resolve := none, deprecationReason := [],
               defaultValue := none }, s1)

/-- The marshalling loop over all fields of the structure. -/
def processFields (env : Env) (classify : TM → StructField → Res)
    (s : TM) (fields : List StructField) : List (Str × GField) × TM :=
  fields.foldl (marshalField env classify) ([], s)

/-- The argument normalisation of lines 360-370: one level of pointer
indirection is stripped before the kind test. -/
def derefArg (t : GoTy) : GoTy :=
  if t.kind == .ptr then t.elem else t

/-- The registry key for a root argument: the struct name, suffixed with
"_Input" in input mode (lines 375-384). -/
def registryKey (mode : TargetType) (t : GoTy) : Str :=
  if mode == .input then (derefArg t).structName ++ s2l ("_Input")
  else (derefArg t).structName

/-- One unfolding of goToGraphqlType (lines 349-539), parametrised by
the recursive entry point used for nested records. -/
def goToGraphqlTypeStep (env : Env) (recurse : TM → Option GoTy → Res)
    (s : TM) (arg : Option GoTy) : Res :=
  match arg with
  | none => (.error .nilInput, s)
  | some structure0 =>
      let structure1 := derefArg structure0
      if !(structure1.kind == .struct) then (.error .notStruct, s)
      else
        let baseName := structure1.structName
        if baseName == [] then (.error .emptyName, s)
        else
          let structureName := registryKey s.targetType structure0
          match lookupA s.graphqlTypes structureName with
          | some cached => (.ok cached, s)
          | none =>
              if structureName ∈ s.parentTypes then
                -- stub branch (lines 394-412): build the placeholder with its
                -- single synthetic field and record it under structureName.
                let typeName := structureName ++ s2l ("Stub")
                let stubField : GField :=
                  { name := s2l ("aField"), type := GInt, description := [],
                    resolve := none, deprecationReason := [], defaultValue := none }
                let obj : HObj :=
                  { name := typeName, isInput := s.targetType == .input, isStub := true,
                    fields := [(s2l ("aField"), stubField)] }
                let id := s.nextId
                (.ok (GType.ref id),
                 { s with heap := insertA s.heap id obj, nextId := id + 1,
                          graphqlTypes := insertA s.graphqlTypes structureName (GType.ref id) })
              else
                let s1 := { s with parentTypes := structureName :: s.parentTypes,
                                   level := s.level + 1 }
                let res := processFields env
                  (fun st f => goFieldToGraphqlTypeAux env recurse st f) s1
                  (fieldsOf env structure1)
                let flds := res.1
                let s2 := res.2
                if flds.isEmpty then
                  (.error (.emptyRecord structureName), unwindStage s2 structureName)
                else
                  let obj : HObj :=
                    { name := structureName, isInput := s2.targetType == .input,
                      isStub := false, fields := flds }
                  let id := s2.nextId
                  let s3 := { s2 with heap := insertA s2.heap id obj, nextId := id + 1,
                                      graphqlTypes := insertA s2.graphqlTypes structureName
                                        (GType.ref id) }
                  (.ok (GType.ref id), unwindStage s3 structureName)

/-- goToGraphqlType driven by fuel; each recursive entry consumes one
unit.  With fuel zero the model reports exhaustion. -/
def goToGraphqlType (env : Env) : Nat → TM → Option GoTy → Res
  | 0, s, _ => (.error .outOfFuel, s)
  | fuel + 1, s, arg => goToGraphqlTypeStep env (goToGraphqlType env fuel) s arg

/-- GoToGraphqlOutput (lines 282-300): set the output target mode, run
the translator, and require the result to be an output object. -/
def GoToGraphqlOutput (env : Env) (fuel : Nat) (s : TM) (arg : Option GoTy) : Res :=
  let s0 := { s with targetType := .output }
  match goToGraphqlType env fuel s0 arg with
  | (.error e, s1) => (.error e, s1)
  | (.ok t, s1) =>
      match t with
      | GType.ref id =>
          (match lookupA s1.heap id with
           | some obj => if obj.isInput then (.error .wrongType, s1) else (.ok t, s1)
           | none => (.error .wrongType, s1))
      | _ => (.error .wrongType, s1)

/-- GoToGraphqlInput (lines 310-328): set the input target mode, run the
translator, and require the result to be an input object. -/
def GoToGraphqlInput (env : Env) (fuel : Nat) (s : TM) (arg : Option GoTy) : Res :=
  let s0 := { s with targetType := .input }
  match goToGraphqlType env fuel s0 arg with
  | (.error e, s1) => (.error e, s1)
  | (.ok t, s1) =>
      match t with
      | GType.ref id =>
          (match lookupA s1.heap id with
           | some obj => if obj.isInput then (.ok t, s1) else (.error .wrongType, s1)
           | none => (.error .wrongType, s1))
      | _ => (.error .wrongType, s1)

/-- A fresh type mapper (NewTypeMapper, lines 197-205). -/
def TM.initial : TM :=
  { heap := [], nextId := 0, graphqlTypes := [], parentTypes := [], level := 0,
    targetType := .output }

/-- An environment with the default no-op hooks (defaultTypeReplacer,
defaultFieldResolverFinder). -/
def Env.default (structs : List (Str × List StructField)) : Env :=
  { structs := structs, typeReplacer := fun _ => none,
    resolverFinder := fun _ _ => none }

/-- Shorthand for a struct field carrying no tags. -/
def fld (n : String) (t : GoTy) : StructField :=
  { name := s2l n, ty := t, tagRequired := [], tagDescription := [], tagReplace := [] }

/-- Shorthand for a struct field with a required tag value. -/
def fldReq (n : String) (t : GoTy) (req : String) : StructField :=
  { name := s2l n, ty := t, tagRequired := s2l req, tagDescription := [], tagReplace := [] }

/-- Fixture: Node has a pointer to itself and a string (spec Scenario A). -/
def nodeEnv : Env := Env.default
  [(s2l ("Node"),
    [fld ("Self") (.ptrTo (.structT (s2l ("Node")))),
     fld ("Name") (.prim .string)])]

/-- Fixture: an empty record and a parent referencing it (Scenario B). -/
def emptyEnv : Env := Env.default
  [(s2l ("Empty"), []),
   (s2l ("Parent"),
    [fld ("A") (.structT (s2l ("Empty"))),
     fld ("B") (.prim .string)])]

/-- Fixture: a record whose self reference sits under pointer-to-slice
with a required tag, producing a NonNull(List(Stub)) reference. -/
def rEnv : Env := Env.default
  [(s2l ("R"),
    [fldReq ("Self") (.ptrTo (.sliceOf (.structT (s2l ("R"))))) ("true"),
     fld ("Name") (.prim .string)])]

/-- Fixture: a genuine (non-placeholder) record whose name ends in
"Stub", and a parent referencing it. -/
def fooEnv : Env := Env.default
  [(s2l ("FooStub"), [fld ("X") (.prim .int)]),
   (s2l ("P"), [fld ("F") (.structT (s2l ("FooStub")))])]

/-- Fixture: a single plain record (spec Scenario C child). -/
def childEnv : Env := Env.default
  [(s2l ("Child"), [fld ("Value") (.prim .int)])]

/-- Fixture: a record with one declared field whose classification
fails (it references the empty record), so its marshalling loop
accumulates zero fields even though fields are declared. -/
def failEnv : Env := Env.default
  [(s2l ("Empty"), []),
   (s2l ("Wrap"), [fld ("A") (.structT (s2l ("Empty")))])]


/-- Fixture heap for the patch pass: object id 1 is a placeholder named
FooStub (as the stub branch would build for a record named Foo). -/
def fooHeap : Heap :=
  [(1, { name := s2l ("FooStub"), isInput := false, isStub := true,
         fields := [(s2l ("aField"),
           { name := s2l ("aField"), type := GInt, description := [],
             resolve := none, deprecationReason := [], defaultValue := none })] })]

/-- Fixture field referencing the FooStub placeholder, carrying
description/resolver metadata. -/
def fooField : GField :=
  { name := s2l ("F"), type := .ref 1, description := s2l ("d"),
    resolve := some (s2l ("res")), deprecationReason := s2l ("old"),
    defaultValue := none }


/-- Fixture parent object holding the stub-referencing field. -/
def pObj : HObj :=
  { name := s2l ("P"), isInput := false, isStub := false,
    fields := [(s2l ("F"), fooField)] }

/-- Fixture registry holding a canonical type for the base name Foo. -/
def fooRegistry : List (Str × GType) := [(s2l ("Foo"), GType.ref 2)]

/-- Fixture heap whose object id 1 is a GENUINE (non-placeholder) record
type that happens to be named FooStub. -/
def genuineHeap : Heap :=
  [(1, { name := s2l ("FooStub"), isInput := false, isStub := false,
         fields := [(s2l ("X"),
           { name := s2l ("X"), type := GInt, description := [],
             resolve := none, deprecationReason := [], defaultValue := none })] })]


/-- Whether a type is a direct reference to a stub object (ghost
predicate used to state the no-residual-stub property). -/
def refIsStub (h : Heap) : GType → Bool
  | .ref id => (match lookupA h id with | some o => o.isStub | none => false)
  | _ => false

/-- Whether a type contains no reference to a stub object anywhere
under its List/NonNull wrapping. -/
def typeStubFree (h : Heap) : GType → Bool
  | .scalar _ => true
  | .ref id => (match lookupA h id with | some o => !o.isStub | none => true)
  | .list t => typeStubFree h t
  | .nonNull t => typeStubFree h t

/-- Whether every field of an object has a stub-free type. -/
def objFieldsStubFree (h : Heap) (o : HObj) : Bool :=
  o.fields.all (fun kv => typeStubFree h kv.2.type)

/-- The name and stub flag of a heap object, the data that never changes
once an object is allocated (the patch pass replaces only fields). -/
def shapeAt (h : Heap) (id : Nat) : Option (Str × Bool) :=
  (lookupA h id).map (fun o => (o.name, o.isStub))

/-- The registry key a struct name compiles under in a given mode. -/
def keyFor (mode : TargetType) (n : Str) : Str :=
  if mode == .input then n ++ s2l ("_Input") else n

/-- Termination measure: the number of declared struct names whose key
is not yet marked in progress. -/
def measureTM (env : Env) (s : TM) : Nat :=
  ((env.structs.map Prod.fst).filter
    (fun n => decide (¬ keyFor s.targetType n ∈ s.parentTypes))).length

/-- Heap invariant: all allocated ids are below the allocation counter,
so fresh allocations never overwrite an object. -/
def HeapFresh (s : TM) : Prop :=
  ∀ id, (lookupA s.heap id).isSome = true → id < s.nextId

/-- Registry invariant: every registered value is a live object
reference. -/
def RegLive (s : TM) : Prop :=
  ∀ k τ, lookupA s.graphqlTypes k = some τ →
    ∃ id, τ = GType.ref id ∧ (lookupA s.heap id).isSome = true

/-- Heap invariant: every stub object's name ends in "Stub". -/
def StubsNamed (s : TM) : Prop :=
  ∀ id obj, lookupA s.heap id = some obj → obj.isStub = true →
    ∃ pre, obj.name = pre ++ s2l ("Stub")

/-- Heap invariant: every object's field map has distinct keys. -/
def FieldKeysNodup (s : TM) : Prop :=
  ∀ id obj, lookupA s.heap id = some obj → ((obj.fields.map Prod.fst).Nodup)

/-- Registry invariant: a registry entry whose value is a stub reference
can only exist for a name still marked in progress. -/
def StubKeysGuarded (s : TM) : Prop :=
  ∀ k τ, lookupA s.graphqlTypes k = some τ → refIsStub s.heap τ = true →
    k ∈ s.parentTypes

/-- The target property after a root call: every registered entry is a
live non-stub object all of whose fields are stub-free.  (Forward
declaration used inside INV.) -/
def StubCleanPred (s : TM) : Prop :=
  ∀ k τ, lookupA s.graphqlTypes k = some τ →
    ∃ id obj, τ = GType.ref id ∧ lookupA s.heap id = some obj ∧
      obj.isStub = false ∧ objFieldsStubFree s.heap obj = true

/-- The conjunction of the state invariants maintained by the
translator.  At nesting level zero the in-progress set is empty and the
registry is fully patched. -/
def INV (s : TM) : Prop :=
  HeapFresh s ∧ RegLive s ∧ StubsNamed s ∧ FieldKeysNodup s ∧ StubKeysGuarded s ∧
  (s.level = 0 → s.parentTypes = []) ∧ (s.level = 0 → StubCleanPred s)

/-- An errored call leaves no freshly created stub entry behind. -/
def NoNewStub (s s2 : TM) : Prop :=
  ∀ k, lookupA s.graphqlTypes k = none → ∀ τ2, lookupA s2.graphqlTypes k = some τ2 →
    refIsStub s2.heap τ2 = false

/-- The monotonicity facts relating the state before and after any
nested (non-root) call: level, in-progress set and target mode are
restored; the allocation counter grows; non-stub registry entries
persist unchanged; registry entries never disappear; existing objects
keep their name and stub flag; an entry freshly created (or persisting
as a stub) under an in-progress name holds a stub. -/
def StateMono (s s2 : TM) : Prop :=
  s2.level = s.level ∧
  s2.parentTypes = s.parentTypes ∧
  s2.targetType = s.targetType ∧
  s.nextId ≤ s2.nextId ∧
  (∀ k τ, lookupA s.graphqlTypes k = some τ → refIsStub s.heap τ = false →
    lookupA s2.graphqlTypes k = some τ ∧ refIsStub s2.heap τ = false) ∧
  (∀ k, (lookupA s.graphqlTypes k).isSome = true →
    (lookupA s2.graphqlTypes k).isSome = true) ∧
  (∀ id, (lookupA s.heap id).isSome = true → shapeAt s2.heap id = shapeAt s.heap id) ∧
  (∀ k, k ∈ s.parentTypes → lookupA s.graphqlTypes k = none →
    ∀ τ2, lookupA s2.graphqlTypes k = some τ2 → refIsStub s2.heap τ2 = true) ∧
  (∀ k, k ∈ s.parentTypes → ∀ τ, lookupA s.graphqlTypes k = some τ →
    refIsStub s.heap τ = true →
    ∀ τ2, lookupA s2.graphqlTypes k = some τ2 → refIsStub s2.heap τ2 = true)

/-- The per-call facts of a nested field-classification call. -/
def FieldFacts (s : TM) (res : Res) : Prop :=
  INV res.2 ∧ StateMono s res.2 ∧
  (∀ e, res.1 = Except.error e → NoNewStub s res.2)

/-- The per-call facts of a goToGraphqlType call, valid at any level. -/
def CallFacts (s : TM) (arg : Option GoTy) (res : Res) : Prop :=
  INV res.2 ∧
  (¬(s.level = 0) → StateMono s res.2) ∧
  res.2.level = s.level ∧ res.2.targetType = s.targetType ∧ s.nextId ≤ res.2.nextId ∧
  (∀ k τ, lookupA s.graphqlTypes k = some τ → refIsStub s.heap τ = false →
    lookupA res.2.graphqlTypes k = some τ ∧ refIsStub res.2.heap τ = false) ∧
  (∀ k, (lookupA s.graphqlTypes k).isSome = true →
    (lookupA res.2.graphqlTypes k).isSome = true) ∧
  (∀ id, (lookupA s.heap id).isSome = true → shapeAt res.2.heap id = shapeAt s.heap id) ∧
  (∀ e, res.1 = Except.error e → NoNewStub s res.2) ∧
  (∀ t0 e, arg = some t0 → res.1 = Except.error e →
    lookupA s.graphqlTypes (registryKey s.targetType t0) = none →
    lookupA res.2.graphqlTypes (registryKey s.targetType t0) = none)


/-- An object slot is clean when the object there (if any) has only
stub-free field types. -/
def heapCleanAt (h : Heap) (id : Nat) : Prop :=
  ∀ obj, lookupA h id = some obj → ∀ fkv ∈ obj.fields, typeStubFree h fkv.2.type = true

/- ===================== theorems ===================== -/

theorem lookupA_insertA_self {α : Type} [DecidableEq α] {β : Type}
    (l : List (α × β)) (k : α) (v : β) : lookupA (insertA l k v) k = some v := by
  induction l with
  | nil => simp [insertA, lookupA]
  | cons hd tl ih =>
      obtain ⟨a, b⟩ := hd
      by_cases h : a = k
      · simp [insertA, h, lookupA]
      · simp [insertA, h, lookupA, ih]

theorem lookupA_insertA_ne {α : Type} [DecidableEq α] {β : Type}
    (l : List (α × β)) (k k2 : α) (v : β) (h : ¬(k = k2)) :
    lookupA (insertA l k v) k2 = lookupA l k2 := by
  induction l with
  | nil => simp [insertA, lookupA, h]
  | cons hd tl ih =>
      obtain ⟨a, b⟩ := hd
      by_cases ha : a = k
      · subst ha
        simp [insertA, lookupA, h]
      · simp [insertA, ha, lookupA, ih]

/-- Claim C8: the primitive-kind-to-scalar mapping is total and never
errors: booleans go to Boolean, integers of at most 32 bits to Int,
64-bit signed to Int64, 64-bit unsigned to Uint64, floats to Float,
strings to String, and every remaining kind degrades to String with the
default-branch diagnostic; the error component is nil for every kind. -/
theorem kindToGraphqlScalar_total_table :
    (∀ (k : GoKind) (fn : Str), (kindToGraphqlScalar k fn).2 = none) ∧
    (∀ fn : Str, (kindToGraphqlScalar .bool fn).1 = Boolean) ∧
    (∀ fn : Str, (kindToGraphqlScalar .int fn).1 = GInt ∧
      (kindToGraphqlScalar .int8 fn).1 = GInt ∧
      (kindToGraphqlScalar .int16 fn).1 = GInt ∧
      (kindToGraphqlScalar .int32 fn).1 = GInt) ∧
    (∀ fn : Str, (kindToGraphqlScalar .int64 fn).1 = Int64) ∧
    (∀ fn : Str, (kindToGraphqlScalar .uint fn).1 = GInt ∧
      (kindToGraphqlScalar .uint8 fn).1 = GInt ∧
      (kindToGraphqlScalar .uint16 fn).1 = GInt ∧
      (kindToGraphqlScalar .uint32 fn).1 = GInt) ∧
    (∀ fn : Str, (kindToGraphqlScalar .uint64 fn).1 = Uint64) ∧
    (∀ fn : Str, (kindToGraphqlScalar .float32 fn).1 = GFloat ∧
      (kindToGraphqlScalar .float64 fn).1 = GFloat) ∧
    (∀ fn : Str, (kindToGraphqlScalar .string fn).1 = GString) ∧
    (∀ fn : Str, (kindToGraphqlScalar .complex64 fn).1 = GString ∧
      (kindToGraphqlScalar .complex128 fn).1 = GString ∧
      (kindToGraphqlScalar .chan fn).1 = GString ∧
      (kindToGraphqlScalar .func fn).1 = GString ∧
      (kindToGraphqlScalar .map fn).1 = GString ∧
      (kindToGraphqlScalar .array fn).1 = GString ∧
      (kindToGraphqlScalar .uintptr fn).1 = GString ∧
      (kindToGraphqlScalar .invalid fn).1 = GString) ∧
    (kindToGraphqlScalarWarns .complex64 = true ∧
      kindToGraphqlScalarWarns .complex128 = true ∧
      kindToGraphqlScalarWarns .chan = true ∧
      kindToGraphqlScalarWarns .func = true ∧
      kindToGraphqlScalarWarns .map = true ∧
      kindToGraphqlScalarWarns .array = true) ∧
    (kindToGraphqlScalarWarns .bool = false ∧
      kindToGraphqlScalarWarns .int = false ∧
      kindToGraphqlScalarWarns .int64 = false ∧
      kindToGraphqlScalarWarns .uint64 = false ∧
      kindToGraphqlScalarWarns .float64 = false ∧
      kindToGraphqlScalarWarns .string = false) := by
  refine ⟨fun k fn => ?_, ?_, ?_, ?_, ?_, ?_, ?_, ?_, ?_, ?_, ?_⟩
  · cases k <;> rfl
  all_goals first
    | exact fun fn => rfl
    | exact fun fn => ⟨rfl, rfl, rfl, rfl⟩
    | exact fun fn => ⟨rfl, rfl⟩
    | exact fun fn => ⟨rfl, rfl, rfl, rfl, rfl, rfl, rfl, rfl⟩
    | exact ⟨rfl, rfl, rfl, rfl, rfl, rfl⟩

/-- Claim C7 counterexample: a field of interface type with one declared
operation whose return type is the Node struct compiles to the generic
Any scalar, not to a type derived from the operation's return type: the
translator applied to that return type would produce the registered Node
object reference, which differs from Any. -/
theorem interface_field_first_method_counterexample :
    goFieldToGraphqlTypeAux nodeEnv (goToGraphqlType nodeEnv 10) TM.initial
      (fld ("I") (.ifaceT 1 (.structT (s2l ("Node"))))) = (.ok Any, TM.initial) ∧
    (goToGraphqlType nodeEnv 10 TM.initial (some (.structT (s2l ("Node"))))).1 =
      .ok (.ref 1) ∧
    Any ≠ GType.ref 1 := by
  refine ⟨rfl, rfl, ?_⟩
  intro h
  simp [Any] at h

/-- Claim C7 amended: every interface-kind value, with any method count,
compiles to the generic opaque Any scalar: the first-declared-operation
heuristic is present in faceToAny but disabled by a constant-false
guard, so it never executes. -/
theorem faceToAny_always_Any (recurse : TM → Option GoTy → Res) (s : TM) (t : GoTy) :
    faceToAnyAux recurse s t = (.ok Any, s) := rfl

/-- Claim C6: when a field's classification succeeds, a required="true"
tag on a pointer-declared field wraps the compiled type in NonNull, and
on a non-pointer field it leaves the compiled type unchanged. -/
theorem required_tag_semantics
    (env : Env) (classify : TM → StructField → Res)
    (acc : List (Str × GField) × TM) (f : StructField) (t0 : GType) (s1 : TM)
    (hc : classify acc.2 f = (.ok t0, s1)) :
    (f.tagRequired = s2l ("true") → f.ty.kind = .ptr →
      ∃ fd, lookupA (marshalField env classify acc f).1 f.name = some fd ∧
        fd.type = .nonNull t0) ∧
    (f.tagRequired = s2l ("true") → ¬(f.ty.kind = .ptr) →
      ∃ fd, lookupA (marshalField env classify acc f).1 f.name = some fd ∧
        fd.type = t0) := by
  constructor
  · intro h1 h2
    cases hm : s1.targetType <;>
      simp [marshalField, hc, hm, h1, h2, lookupA_insertA_self]
  · intro h1 h2
    cases hm : s1.targetType <;>
      simp [marshalField, hc, hm, h1, h2, lookupA_insertA_self]

/-- Claim C6 witness: the required pointer field of the R fixture
compiles to a NonNull-wrapped type, and a required non-pointer string
field stays unwrapped. -/
theorem required_tag_semantics_witness :
    (fldReq ("Self") (.ptrTo (.prim .string)) ("true")).tagRequired = s2l ("true") ∧
    (fldReq ("Self") (.ptrTo (.prim .string)) ("true")).ty.kind = .ptr ∧
    (∃ fd, lookupA (marshalField (Env.default []) (fun s _ => (.ok GString, s))
        ([], TM.initial) (fldReq ("Self") (.ptrTo (.prim .string)) ("true"))).1
        (s2l ("Self")) = some fd ∧ fd.type = .nonNull GString) ∧
    (∃ fd, lookupA (marshalField (Env.default []) (fun s _ => (.ok GString, s))
        ([], TM.initial) (fldReq ("Plain") (.prim .string) ("true"))).1
        (s2l ("Plain")) = some fd ∧ fd.type = GString) := by
  refine ⟨rfl, rfl, ?_, ?_⟩
  · exact (required_tag_semantics (Env.default []) (fun s _ => (.ok GString, s))
      ([], TM.initial) (fldReq ("Self") (.ptrTo (.prim .string)) ("true"))
      GString TM.initial rfl).1 rfl rfl
  · exact (required_tag_semantics (Env.default []) (fun s _ => (.ok GString, s))
      ([], TM.initial) (fldReq ("Plain") (.prim .string) ("true"))
      GString TM.initial rfl).2 rfl (by decide)

/-- Claim C10: each of the three argument-validation failures (nil
argument, non-struct kind after one pointer dereference, empty struct
name) returns an error with the mapper state exactly as it was: registry,
in-progress set, nesting level and heap untouched. -/
theorem argument_validation_atomic (env : Env) (fuel : Nat) (s : TM) :
    (goToGraphqlType env (fuel + 1) s none = (.error .nilInput, s)) ∧
    (∀ t : GoTy, ¬((derefArg t).kind = .struct) →
      goToGraphqlType env (fuel + 1) s (some t) = (.error .notStruct, s)) ∧
    (∀ t : GoTy, (derefArg t).kind = .struct → (derefArg t).structName = [] →
      goToGraphqlType env (fuel + 1) s (some t) = (.error .emptyName, s)) := by
  refine ⟨rfl, ?_, ?_⟩
  · intro t h
    simp [goToGraphqlType, goToGraphqlTypeStep, h]
  · intro t h hn
    simp [goToGraphqlType, goToGraphqlTypeStep, h, hn]

/-- Claim C10 witness: a non-struct argument and an anonymous struct
argument are both rejected with the initial state returned unchanged. -/
theorem argument_validation_atomic_witness :
    ¬((derefArg (GoTy.prim .int)).kind = .struct) ∧
    goToGraphqlType (Env.default []) 1 TM.initial (some (.prim .int)) =
      (.error .notStruct, TM.initial) ∧
    (derefArg (GoTy.structT [])).kind = .struct ∧
    (derefArg (GoTy.structT [])).structName = [] ∧
    goToGraphqlType (Env.default []) 1 TM.initial (some (.structT [])) =
      (.error .emptyName, TM.initial) := by
  refine ⟨by decide, ?_, by decide, by decide, ?_⟩
  · exact (argument_validation_atomic (Env.default []) 0 TM.initial).2.1 _ (by decide)
  · exact (argument_validation_atomic (Env.default []) 0 TM.initial).2.2 _ (by decide) (by decide)

/-- Claim C3 counterexample: when Node is already in progress, the stub
branch returns the placeholder object named NodeStub but DOES create a
registry entry under the bare name Node pointing at that stub, contrary
to the claim that the name is left unregistered. -/
theorem stub_branch_counterexample :
    (goToGraphqlType nodeEnv 5 { TM.initial with parentTypes := [s2l ("Node")] }
      (some (.structT (s2l ("Node"))))).1 = .ok (.ref 0) ∧
    lookupA (goToGraphqlType nodeEnv 5 { TM.initial with parentTypes := [s2l ("Node")] }
      (some (.structT (s2l ("Node"))))).2.graphqlTypes (s2l ("Node")) = some (.ref 0) ∧
    (lookupA (goToGraphqlType nodeEnv 5 { TM.initial with parentTypes := [s2l ("Node")] }
      (some (.structT (s2l ("Node"))))).2.heap 0).map HObj.name =
      some (s2l ("NodeStub")) := by
  exact ⟨rfl, rfl, rfl⟩

/-- Claim C3 amended: on structural recursion the compiler builds a stub
object named name+"Stub" carrying the single synthetic field
aField : Int, returns it, and registers it in the type registry under
the bare (mode-suffixed) name itself; the in-progress set and nesting
level are untouched. -/
theorem stub_branch_registers_stub
    (env : Env) (fuel : Nat) (s : TM) (t : GoTy)
    (hstruct : (derefArg t).kind = .struct)
    (hname : ¬((derefArg t).structName = []))
    (hmiss : lookupA s.graphqlTypes (registryKey s.targetType t) = none)
    (hpar : registryKey s.targetType t ∈ s.parentTypes) :
    goToGraphqlType env (fuel + 1) s (some t) =
      (.ok (.ref s.nextId),
       { s with
           heap := insertA s.heap s.nextId
             { name := registryKey s.targetType t ++ s2l ("Stub"),
               isInput := s.targetType == .input, isStub := true,
               fields := [(s2l ("aField"),
                 { name := s2l ("aField"), type := GInt, description := [],
                   resolve := none, deprecationReason := [], defaultValue := none })] },
           nextId := s.nextId + 1,
           graphqlTypes := insertA s.graphqlTypes (registryKey s.targetType t)
             (.ref s.nextId) }) := by
  simp [goToGraphqlType, goToGraphqlTypeStep, hstruct, hname, hmiss, hpar]

/-- Claim C3 witness: the amended stub behaviour at the concrete Node
fixture with Node marked in progress. -/
theorem stub_branch_registers_stub_witness :
    (derefArg (GoTy.structT (s2l ("Node")))).kind = .struct ∧
    ¬((derefArg (GoTy.structT (s2l ("Node")))).structName = []) ∧
    lookupA TM.initial.graphqlTypes
      (registryKey TM.initial.targetType (.structT (s2l ("Node")))) = none ∧
    goToGraphqlType nodeEnv 5 { TM.initial with parentTypes := [s2l ("Node")] }
      (some (.structT (s2l ("Node")))) =
      (.ok (.ref 0),
       { TM.initial with
           parentTypes := [s2l ("Node")],
           heap := insertA [] 0
             { name := s2l ("Node") ++ s2l ("Stub"), isInput := false, isStub := true,
               fields := [(s2l ("aField"),
                 { name := s2l ("aField"), type := GInt, description := [],
                   resolve := none, deprecationReason := [], defaultValue := none })] },
           nextId := 1,
           graphqlTypes := insertA [] (s2l ("Node")) (.ref 0) }) := by
  refine ⟨by decide, by decide, rfl, ?_⟩
  exact stub_branch_registers_stub nodeEnv 4
    { TM.initial with parentTypes := [s2l ("Node")] } (.structT (s2l ("Node")))
    (by decide) (by decide) rfl (by decide)

theorem patchAll_graphqlTypes (s : TM) : (patchAll s).graphqlTypes = s.graphqlTypes := rfl

theorem patchAll_targetType (s : TM) : (patchAll s).targetType = s.targetType := rfl

theorem unwindStage_graphqlTypes (s : TM) (n : Str) :
    (unwindStage s n).graphqlTypes = s.graphqlTypes := by
  unfold unwindStage
  dsimp only
  split <;> rfl

theorem unwindStage_targetType (s : TM) (n : Str) :
    (unwindStage s n).targetType = s.targetType := by
  unfold unwindStage
  dsimp only
  split <;> rfl

theorem marshalField_targetType (env : Env) (classify : TM → StructField → Res)
    (h : ∀ st g, ((classify st g).2).targetType = st.targetType)
    (acc : List (Str × GField) × TM) (f : StructField) :
    ((marshalField env classify acc f).2).targetType = acc.2.targetType := by
  rcases hcl : classify acc.2 f with ⟨r, s1⟩
  have h1 := h acc.2 f
  rw [hcl] at h1
  cases r with
  | error e => simpa [marshalField, hcl] using h1
  | ok t0 =>
      simp only [marshalField, hcl]
      split <;> exact h1

theorem processFields_fold_targetType (env : Env) (classify : TM → StructField → Res)
    (h : ∀ st g, ((classify st g).2).targetType = st.targetType) :
    ∀ (fs : List StructField) (acc : List (Str × GField) × TM),
      ((fs.foldl (marshalField env classify) acc).2).targetType = acc.2.targetType := by
  intro fs
  induction fs with
  | nil => intro acc; rfl
  | cons g gs ih =>
      intro acc
      rw [List.foldl_cons, ih]
      exact marshalField_targetType env classify h acc g

theorem targetType_of_eq (recurse : TM → Option GoTy → Res)
    (h : ∀ st a, ((recurse st a).2).targetType = st.targetType)
    {s : TM} {a : Option GoTy} {r : Except CompErr GType} {s1 : TM}
    (heq : recurse s a = (r, s1)) : s1.targetType = s.targetType := by
  have h2 := h s a
  rw [heq] at h2
  exact h2

theorem goField_targetType (env : Env) (recurse : TM → Option GoTy → Res)
    (h : ∀ st a, ((recurse st a).2).targetType = st.targetType)
    (s : TM) (f : StructField) :
    ((goFieldToGraphqlTypeAux env recurse s f).2).targetType = s.targetType := by
  unfold goFieldToGraphqlTypeAux faceToAnyAux
  dsimp only
  (repeat' split) <;> (try rfl) <;>
    first
      | exact h _ _
      | exact targetType_of_eq recurse h (by assumption)
      | simp_all

theorem goToGraphqlType_targetType (env : Env) :
    ∀ (fuel : Nat) (s : TM) (arg : Option GoTy),
      ((goToGraphqlType env fuel s arg).2).targetType = s.targetType := by
  intro fuel
  induction fuel with
  | zero => intro s arg; rfl
  | succ n ih =>
      intro s arg
      have hc : ∀ st g, ((goFieldToGraphqlTypeAux env (goToGraphqlType env n) st g).2).targetType
          = st.targetType := fun st g => goField_targetType env _ (fun st2 a => ih st2 a) st g
      show ((goToGraphqlTypeStep env (goToGraphqlType env n) s arg).2).targetType = s.targetType
      unfold goToGraphqlTypeStep
      cases arg with
      | none => rfl
      | some t =>
          dsimp only
          (repeat' split) <;> (try rfl) <;>
            (rw [unwindStage_targetType]
             simp only [processFields]
             exact processFields_fold_targetType env _ hc _ _)

theorem marshalField_pres (env : Env) (classify : TM → StructField → Res)
    (P : TM → Prop) (h : ∀ st g, P st → P ((classify st g).2))
    (acc : List (Str × GField) × TM) (f : StructField) (hp : P acc.2) :
    P ((marshalField env classify acc f).2) := by
  rcases hcl : classify acc.2 f with ⟨r, s1⟩
  have h1 := h acc.2 f hp
  rw [hcl] at h1
  cases r with
  | error e => simpa [marshalField, hcl] using h1
  | ok t0 =>
      simp only [marshalField, hcl]
      split <;> exact h1

theorem fold_marshal_pres (env : Env) (classify : TM → StructField → Res)
    (P : TM → Prop) (h : ∀ st g, P st → P ((classify st g).2)) :
    ∀ (fs : List StructField) (acc : List (Str × GField) × TM), P acc.2 →
      P ((fs.foldl (marshalField env classify) acc).2) := by
  intro fs
  induction fs with
  | nil => intro acc hp; exact hp
  | cons g gs ih =>
      intro acc hp
      rw [List.foldl_cons]
      exact ih _ (marshalField_pres env classify P h acc g hp)

theorem pres_of_eq (recurse : TM → Option GoTy → Res) (P : TM → Prop)
    (h : ∀ st a, P st → P ((recurse st a).2))
    {s : TM} {a : Option GoTy} {r : Except CompErr GType} {s1 : TM}
    (heq : recurse s a = (r, s1)) (hp : P s) : P s1 := by
  have h2 := h s a hp
  rw [heq] at h2
  exact h2

theorem goField_pres (env : Env) (recurse : TM → Option GoTy → Res)
    (P : TM → Prop) (h : ∀ st a, P st → P ((recurse st a).2))
    (s : TM) (f : StructField) (hp : P s) :
    P ((goFieldToGraphqlTypeAux env recurse s f).2) := by
  unfold goFieldToGraphqlTypeAux faceToAnyAux
  dsimp only
  (repeat' split) <;> (try exact hp) <;>
    first
      | exact h _ _ hp
      | exact pres_of_eq recurse P h (by assumption) hp
      | simp_all

theorem goToGraphqlType_pres (env : Env) (P : TM → Prop)
    (hreg : ∀ (s : TM) (obj : HObj) (id : Nat) (key : Str), P s →
      P { s with heap := insertA s.heap id obj, nextId := id + 1,
                 graphqlTypes := insertA s.graphqlTypes key (.ref id) })
    (hpar : ∀ (s : TM) (key : Str), P s →
      P { s with parentTypes := key :: s.parentTypes, level := s.level + 1 })
    (hunw : ∀ (s : TM) (key : Str), P s → P (unwindStage s key)) :
    ∀ (fuel : Nat) (s : TM) (arg : Option GoTy), P s →
      P ((goToGraphqlType env fuel s arg).2) := by
  intro fuel
  induction fuel with
  | zero => intro s arg hp; exact hp
  | succ n ih =>
      intro s arg hp
      have hc : ∀ st g, P st →
          P ((goFieldToGraphqlTypeAux env (goToGraphqlType env n) st g).2) :=
        fun st g hps => goField_pres env _ P (fun st2 a hp2 => ih st2 a hp2) st g hps
      show P ((goToGraphqlTypeStep env (goToGraphqlType env n) s arg).2)
      unfold goToGraphqlTypeStep
      cases arg with
      | none => exact hp
      | some t =>
          dsimp only
          (repeat' split) <;> (try exact hp) <;>
            first
              | exact hreg _ _ _ _ hp
              | (apply hunw
                 simp only [processFields]
                 exact fold_marshal_pres env _ P hc _ _ (hpar _ _ hp))
              | (apply hunw
                 apply hreg
                 simp only [processFields]
                 exact fold_marshal_pres env _ P hc _ _ (hpar _ _ hp))

theorem mem_keys_insertA {α : Type} [DecidableEq α] {β : Type}
    (l : List (α × β)) (k : α) (v : β) (x : α) :
    x ∈ (insertA l k v).map Prod.fst ↔ x ∈ l.map Prod.fst ∨ x = k := by
  induction l with
  | nil => simp [insertA]
  | cons hd tl ih =>
      obtain ⟨a, b⟩ := hd
      by_cases h : a = k
      · subst h
        simp [insertA]
        tauto
      · simp [insertA, h, ih]
        tauto

theorem insertA_nodupKeys {α : Type} [DecidableEq α] {β : Type}
    (l : List (α × β)) (k : α) (v : β) (h : (l.map Prod.fst).Nodup) :
    ((insertA l k v).map Prod.fst).Nodup := by
  induction l with
  | nil => simp [insertA]
  | cons hd tl ih =>
      obtain ⟨a, b⟩ := hd
      simp only [List.map_cons, List.nodup_cons] at h
      by_cases hk : a = k
      · subst hk
        simpa [insertA] using h
      · simp only [insertA, if_neg hk, List.map_cons, List.nodup_cons]
        refine ⟨?_, ih h.2⟩
        intro hmem
        rcases (mem_keys_insertA tl k v a).1 hmem with h2 | h2
        · exact h.1 h2
        · exact hk h2

theorem goToGraphqlType_registers (env : Env) (fuel : Nat) (s : TM) (t : GoTy)
    (tau : GType) (s2 : TM)
    (hrun : goToGraphqlType env fuel s (some t) = (.ok tau, s2)) :
    lookupA s2.graphqlTypes (registryKey s.targetType t) = some tau := by
  cases fuel with
  | zero => simp [goToGraphqlType] at hrun
  | succ n =>
      unfold goToGraphqlType goToGraphqlTypeStep at hrun
      dsimp only at hrun
      (repeat' split at hrun) <;>
        first
          | (injection hrun with h1 h2
             injection h1 with h3
             subst h3
             rw [← h2]
             first
               | assumption
               | (rw [unwindStage_graphqlTypes]
                  dsimp only
                  exact lookupA_insertA_self _ _ _)
               | (dsimp only
                  exact lookupA_insertA_self _ _ _))
          | (injection hrun with h1 h2
             injection h1)

/-- Claim C2: a successful compile registers the returned instance under
its (mode-suffixed) name; a second compile of the same record in the
same mode then returns that identical cached instance with the state
completely unchanged (no further field work); and key uniqueness of the
registry is preserved, so one (name, mode) key never maps to two
entries. -/
theorem compile_idempotent_cached
    (env : Env) (fuel fuel2 : Nat) (s : TM) (t : GoTy) (tau : GType) (s2 : TM)
    (hstruct : (derefArg t).kind = .struct)
    (hname : ¬((derefArg t).structName = []))
    (hrun : goToGraphqlType env fuel s (some t) = (.ok tau, s2)) :
    lookupA s2.graphqlTypes (registryKey s.targetType t) = some tau ∧
    goToGraphqlType env (fuel2 + 1) s2 (some t) = (.ok tau, s2) ∧
    ((s.graphqlTypes.map Prod.fst).Nodup → (s2.graphqlTypes.map Prod.fst).Nodup) := by
  have hreg := goToGraphqlType_registers env fuel s t tau s2 hrun
  have ht : s2.targetType = s.targetType := by
    have h0 := goToGraphqlType_targetType env fuel s (some t)
    rw [hrun] at h0
    exact h0
  refine ⟨hreg, ?_, ?_⟩
  · show goToGraphqlTypeStep env (goToGraphqlType env fuel2) s2 (some t) = (.ok tau, s2)
    unfold goToGraphqlTypeStep
    dsimp only
    rw [ht, if_neg (by simp [hstruct]), if_neg (by simpa using hname), hreg]
  · intro hnd
    have hp := goToGraphqlType_pres env
      (fun st => (st.graphqlTypes.map Prod.fst).Nodup)
      (fun st obj id key hq => insertA_nodupKeys _ _ _ hq)
      (fun st key hq => hq)
      (fun st key hq => by dsimp only; rwa [unwindStage_graphqlTypes])
      fuel s (some t) hnd
    rw [hrun] at hp
    exact hp

/-- Claim C2 witness: compiling Child, then compiling it again, returns
the identical registered object reference with the state unchanged. -/
theorem compile_idempotent_cached_witness :
    (derefArg (GoTy.structT (s2l ("Child")))).kind = .struct ∧
    ¬((derefArg (GoTy.structT (s2l ("Child")))).structName = []) ∧
    lookupA (goToGraphqlType childEnv 5 TM.initial
        (some (.structT (s2l ("Child"))))).2.graphqlTypes
      (registryKey TM.initial.targetType (.structT (s2l ("Child")))) =
        some (.ref 0) ∧
    goToGraphqlType childEnv 3
        (goToGraphqlType childEnv 5 TM.initial (some (.structT (s2l ("Child"))))).2
        (some (.structT (s2l ("Child")))) =
      (.ok (.ref 0),
       (goToGraphqlType childEnv 5 TM.initial (some (.structT (s2l ("Child"))))).2) := by
  have h := compile_idempotent_cached childEnv 5 2 TM.initial
    (.structT (s2l ("Child"))) (.ref 0)
    (goToGraphqlType childEnv 5 TM.initial (some (.structT (s2l ("Child"))))).2
    (by decide) (by decide) rfl
  exact ⟨by decide, by decide, h.1, h.2.1⟩

theorem lookupA_removeA_self {α : Type} [DecidableEq α] {β : Type}
    (l : List (α × β)) (k : α) : lookupA (removeA l k) k = none := by
  induction l with
  | nil => simp [removeA, lookupA]
  | cons hd tl ih =>
      obtain ⟨a, b⟩ := hd
      by_cases h : a = k
      · simp [removeA, h, ih]
      · simp [removeA, h, lookupA, ih]

theorem lookupA_removeA_ne {α : Type} [DecidableEq α] {β : Type}
    (l : List (α × β)) (k k2 : α) (h : ¬(k = k2)) :
    lookupA (removeA l k) k2 = lookupA l k2 := by
  induction l with
  | nil => simp [removeA]
  | cons hd tl ih =>
      obtain ⟨a, b⟩ := hd
      by_cases ha : a = k
      · subst ha
        simp [removeA, lookupA, ih, if_neg h]
      · simp [removeA, ha, lookupA, ih]

theorem patchField_other (registry : List (Str × GType)) (h : Heap) (isInput : Bool)
    (cur : List (Str × GField)) (k2 : Str) (fd : GField) (k : Str) (hne : ¬(k2 = k)) :
    lookupA (patchField registry h isInput cur k2 fd) k = lookupA cur k := by
  unfold patchField
  dsimp only
  (repeat' split) <;>
    simp [lookupA_insertA_ne _ _ _ _ hne, lookupA_removeA_ne _ _ _ hne]

theorem patchFold_untouched (registry : List (Str × GType)) (h : Heap) (isInput : Bool)
    (k : Str) :
    ∀ (snap : List (Str × GField)) (cur : List (Str × GField)),
      (∀ kv ∈ snap, ¬(kv.1 = k)) →
      lookupA (snap.foldl (fun c kv => patchField registry h isInput c kv.1 kv.2) cur) k =
        lookupA cur k := by
  intro snap
  induction snap with
  | nil => intro cur _; rfl
  | cons kv rest ih =>
      intro cur hne
      rw [List.foldl_cons, ih _ (fun x hx => hne x (List.mem_cons_of_mem kv hx)),
        patchField_other registry h isInput cur kv.1 kv.2 k (hne kv (List.mem_cons_self kv rest))]

theorem lookupA_of_mem_nodup {α : Type} [DecidableEq α] {β : Type} :
    ∀ (l : List (α × β)) (k : α) (v : β), (k, v) ∈ l → (l.map Prod.fst).Nodup →
      lookupA l k = some v := by
  intro l
  induction l with
  | nil => intro k v hmem; exact absurd hmem (List.not_mem_nil _)
  | cons hd tl ih =>
      intro k v hmem hnd
      obtain ⟨a, b⟩ := hd
      simp only [List.map_cons, List.nodup_cons] at hnd
      rcases List.mem_cons.mp hmem with heq | hrest
      · injection heq with h1 h2
        subst h1
        subst h2
        simp [lookupA]
      · have hk : k ∈ tl.map Prod.fst := by
          have := List.mem_map_of_mem Prod.fst hrest
          simpa using this
        have hne : ¬(a = k) := fun he => hnd.1 (he ▸ hk)
        simp [lookupA, hne, ih k v hrest hnd.2]

theorem patchFold_spec (registry : List (Str × GType)) (h : Heap) (isInput : Bool) :
    ∀ (snap cur : List (Str × GField)) (k : Str) (fd : GField),
      (k, fd) ∈ snap → (snap.map Prod.fst).Nodup → lookupA cur k = some fd →
      lookupA (snap.foldl (fun c kv => patchField registry h isInput c kv.1 kv.2) cur) k =
        (match findStub (nameIn h fd.type) with
         | none => some fd
         | some typeName =>
            match getType registry typeName (strIn h fd.type) with
            | .error _ => none
            | .ok fieldType => some (if isInput then
                { name := k, type := fieldType, description := fd.description,
                  resolve := none, deprecationReason := [], defaultValue := fd.defaultValue }
              else
                { name := k, type := fieldType, description := fd.description,
                  resolve := fd.resolve, deprecationReason := fd.deprecationReason,
                  defaultValue := none })) := by
  intro snap
  induction snap with
  | nil => intro cur k fd hmem; exact absurd hmem (List.not_mem_nil _)
  | cons kv rest ih =>
      intro cur k fd hmem hnd hcur
      simp only [List.map_cons, List.nodup_cons] at hnd
      rw [List.foldl_cons]
      rcases List.mem_cons.mp hmem with heq | hrest
      · subst heq
        have hnotin : ¬(k ∈ rest.map Prod.fst) := hnd.1
        rw [patchFold_untouched registry h isInput k rest _
          (fun x hx hxe => hnotin (by rw [← hxe]; exact List.mem_map_of_mem Prod.fst hx))]
        rcases hfs : findStub (nameIn h fd.type) with _ | typeName
        · simp only [patchField, hfs, hcur]
        · rcases hgt : getType registry typeName (strIn h fd.type) with e | ft
          · simp only [patchField, hfs, hgt, lookupA_removeA_self]
          · simp only [patchField, hfs, hgt]
            cases isInput <;>
              simp [lookupA_insertA_self]
      · have hk : k ∈ rest.map Prod.fst := List.mem_map_of_mem Prod.fst hrest
        have hne : ¬(kv.1 = k) := fun he => hnd.1 (he ▸ hk)
        exact ih (patchField registry h isInput cur kv.1 kv.2) k fd hrest hnd.2
          (by rw [patchField_other registry h isInput cur kv.1 kv.2 k hne]; exact hcur)

/-- Claim C4 counterexample: a field whose type name matches the stub
pattern but whose base name has no registered canonical type is DELETED
by the patch step, not left present with its stub type: patching the
one-field map yields the empty field map. -/
theorem patch_missing_base_counterexample :
    patchField [(s2l ("P"), GType.ref 0)] fooHeap false [(s2l ("F"), fooField)]
      (s2l ("F")) fooField = [] ∧
    ¬(patchField [(s2l ("P"), GType.ref 0)] fooHeap false [(s2l ("F"), fooField)]
        (s2l ("F")) fooField = [(s2l ("F"), fooField)]) := by
  exact ⟨rfl, by decide⟩

/-- Claim C4 amended: during the patch pass, for every field of a
registered object whose type name matches the stub pattern: if no type
is registered under the extracted base name the field is deleted from
the object (after a logged warning) and stays absent; otherwise the
field is replaced in place by the getType-resolved type (canonical type
re-wrapped according to the List/NonNull markers of the reference's
rendering), preserving description, resolver and deprecation metadata
for output objects, and default value and description for input
objects. -/
theorem patch_pass_field_resolution
    (registry : List (Str × GType)) (h : Heap) (obj : HObj) (k : Str) (fd : GField)
    (typeName : Str)
    (hmem : (k, fd) ∈ obj.fields) (hnd : (obj.fields.map Prod.fst).Nodup)
    (hstub : findStub (nameIn h fd.type) = some typeName) :
    (lookupA registry typeName = none →
      lookupA (patchObj registry h obj).fields k = none) ∧
    (∀ fieldType, getType registry typeName (strIn h fd.type) = .ok fieldType →
      lookupA (patchObj registry h obj).fields k =
        some (if obj.isInput then
          { name := k, type := fieldType, description := fd.description,
            resolve := none, deprecationReason := [], defaultValue := fd.defaultValue }
        else
          { name := k, type := fieldType, description := fd.description,
            resolve := fd.resolve, deprecationReason := fd.deprecationReason,
            defaultValue := none })) := by
  have hcur : lookupA obj.fields k = some fd := lookupA_of_mem_nodup _ k fd hmem hnd
  have hspec := patchFold_spec registry h obj.isInput obj.fields obj.fields k fd
    hmem hnd hcur
  constructor
  · intro hnone
    show lookupA (obj.fields.foldl (fun c kv => patchField registry h obj.isInput c kv.1 kv.2) obj.fields) k = none
    rw [hspec]
    simp [hstub, getType, hnone]
  · intro fieldType hok
    show lookupA (obj.fields.foldl (fun c kv => patchField registry h obj.isInput c kv.1 kv.2) obj.fields) k = _
    rw [hspec]
    simp only [hstub, hok]

/-- Claim C4 witness: with a canonical type registered under Foo, the
patch pass replaces the stub-referencing field F in place, preserving
its description, resolver and deprecation metadata. -/
theorem patch_pass_field_resolution_witness :
    (s2l ("F"), fooField) ∈ pObj.fields ∧
    (pObj.fields.map Prod.fst).Nodup ∧
    findStub (nameIn fooHeap fooField.type) = some (s2l ("Foo")) ∧
    getType fooRegistry (s2l ("Foo")) (strIn fooHeap fooField.type) =
      .ok (.ref 2) ∧
    lookupA (patchObj fooRegistry fooHeap pObj).fields (s2l ("F")) =
      some { name := s2l ("F"), type := .ref 2, description := s2l ("d"),
             resolve := some (s2l ("res")), deprecationReason := s2l ("old"),
             defaultValue := none } := by
  have h := (patch_pass_field_resolution fooRegistry fooHeap pObj (s2l ("F")) fooField
    (s2l ("Foo")) (by decide) (by decide) rfl).2 (.ref 2) rfl
  exact ⟨by decide, by decide, rfl, rfl, h⟩

/-- Claim C9: the patch pass classifies a field as stub-referencing
solely by the textual stub pattern on the field's type name: a field
whose type is a genuine, non-placeholder object whose name matches
(ends in "Stub") is processed identically, deleted and re-resolved
under the name with the suffix stripped, even though no cycle was
involved. -/
theorem patch_classifies_by_name_only
    (registry : List (Str × GType)) (h : Heap) (obj : HObj) (k : Str) (fd : GField)
    (id : Nat) (tobj : HObj) (typeName : Str)
    (hmem : (k, fd) ∈ obj.fields) (hnd : (obj.fields.map Prod.fst).Nodup)
    (hty : fd.type = .ref id) (hheap : lookupA h id = some tobj)
    (_hgenuine : tobj.isStub = false)
    (hstub : findStub tobj.name = some typeName) :
    (lookupA registry typeName = none →
      lookupA (patchObj registry h obj).fields k = none) ∧
    (∀ fieldType, getType registry typeName tobj.name = .ok fieldType →
      lookupA (patchObj registry h obj).fields k =
        some (if obj.isInput then
          { name := k, type := fieldType, description := fd.description,
            resolve := none, deprecationReason := [], defaultValue := fd.defaultValue }
        else
          { name := k, type := fieldType, description := fd.description,
            resolve := fd.resolve, deprecationReason := fd.deprecationReason,
            defaultValue := none })) := by
  have hname : nameIn h fd.type = tobj.name := by rw [hty]; simp [nameIn, hheap]
  have hstr : strIn h fd.type = tobj.name := by rw [hty]; simp [strIn, hheap]
  have hcur : lookupA obj.fields k = some fd := lookupA_of_mem_nodup _ k fd hmem hnd
  have hspec := patchFold_spec registry h obj.isInput obj.fields obj.fields k fd
    hmem hnd hcur
  rw [hname] at hspec
  rw [hstr] at hspec
  constructor
  · intro hnone
    show lookupA (obj.fields.foldl (fun c kv => patchField registry h obj.isInput c kv.1 kv.2) obj.fields) k = none
    rw [hspec]
    simp [hstub, getType, hnone]
  · intro fieldType hok
    show lookupA (obj.fields.foldl (fun c kv => patchField registry h obj.isInput c kv.1 kv.2) obj.fields) k = _
    rw [hspec]
    simp only [hstub, hok]

/-- Claim C9 witness: the genuine object named FooStub is processed by
the patch pass purely on its name: with no type registered under Foo,
the field referencing it is deleted. -/
theorem patch_classifies_by_name_only_witness :
    (s2l ("F"), fooField) ∈ pObj.fields ∧
    fooField.type = .ref 1 ∧
    (lookupA genuineHeap 1).map HObj.isStub = some false ∧
    findStub (s2l ("FooStub")) = some (s2l ("Foo")) ∧
    lookupA ([] : List (Str × GType)) (s2l ("Foo")) = none ∧
    lookupA (patchObj [] genuineHeap pObj).fields (s2l ("F")) = none := by
  have h := (patch_classifies_by_name_only [] genuineHeap pObj (s2l ("F")) fooField
    1 { name := s2l ("FooStub"), isInput := false, isStub := false,
        fields := [(s2l ("X"),
          { name := s2l ("X"), type := GInt, description := [],
            resolve := none, deprecationReason := [], defaultValue := none })] }
    (s2l ("Foo")) (by decide) (by decide) rfl rfl rfl rfl).1 rfl
  exact ⟨by decide, rfl, rfl, rfl, rfl, h⟩

theorem isPrefixStr_refl : ∀ p : Str, isPrefixStr p p = true := by
  intro p
  induction p with
  | nil => rfl
  | cons c rest ih => simp [isPrefixStr, ih]

theorem containsSub_refl (p : Str) : containsSub p p = true := by
  cases p with
  | nil => rfl
  | cons c rest => simp [containsSub, isPrefixStr_refl]

theorem containsSub_append_left (a b p : Str) (h : containsSub b p = true) :
    containsSub (a ++ b) p = true := by
  induction a with
  | nil => simpa using h
  | cons c rest ih => simp [containsSub, ih]

theorem containsSub_suffix (a p : Str) : containsSub (a ++ p) p = true :=
  containsSub_append_left a p p (containsSub_refl p)

theorem mem_of_isPrefixStr : ∀ (p s : Str), isPrefixStr p s = true → ∀ c ∈ p, c ∈ s := by
  intro p
  induction p with
  | nil => intro s _ c hc; exact absurd hc (List.not_mem_nil c)
  | cons a ps ih =>
      intro s hpre c hc
      cases s with
      | nil => simp [isPrefixStr] at hpre
      | cons b bs =>
          simp only [isPrefixStr, Bool.and_eq_true, beq_iff_eq] at hpre
          rcases List.mem_cons.mp hc with hce | hcs
          · subst hce
            rw [hpre.1]
            exact List.mem_cons_self b bs
          · exact List.mem_cons_of_mem b (ih bs hpre.2 c hcs)

theorem containsSub_false_of_char (s p : Str) (c : Char) (hc : c ∈ p)
    (hs : ∀ x ∈ s, ¬(x = c)) : containsSub s p = false := by
  induction s with
  | nil =>
      cases p with
      | nil => exact absurd hc (List.not_mem_nil c)
      | cons a ps => rfl
  | cons x rest ih =>
      have hpre : isPrefixStr p (x :: rest) = false := by
        by_contra hne
        have := mem_of_isPrefixStr p (x :: rest) (by simpa using hne) c hc
        exact hs c this rfl
      simp [containsSub, hpre,
        ih (fun y hy => hs y (List.mem_cons_of_mem x hy))]

theorem reListMatches_false_of_no_bracket (s : Str)
    (h : ∀ x ∈ s, ¬(x = '[')) : reListMatches s = false := by
  induction s with
  | nil => rfl
  | cons c rest ih =>
      have : ¬(c = '[') := h c (List.mem_cons_self c rest)
      simp [reListMatches, this,
        ih (fun y hy => h y (List.mem_cons_of_mem c hy))]

theorem reListMatches_bracket (rest : Str)
    (h : containsSub rest (s2l ("Stub]")) = true) :
    reListMatches ('[' :: rest) = true := by
  simp [reListMatches, h]

theorem findStub_cons_some (c : Char) (rest p : Str) (h : findStub rest = some p) :
    findStub (c :: rest) = some (c :: p) := by
  simp [findStub, h]

theorem findStub_append_stub : ∀ K : Str, findStub (K ++ s2l ("Stub")) = some K := by
  intro K
  induction K with
  | nil => rfl
  | cons c rest ih => simpa using findStub_cons_some c _ rest ih

theorem isPrefixStr_append_single : ∀ (p s : Str) (c : Char), ¬(c ∈ p) →
    isPrefixStr p (s ++ [c]) = isPrefixStr p s := by
  intro p
  induction p with
  | nil => intro s c _; rfl
  | cons a ps ih =>
      intro s c hc
      cases s with
      | nil =>
          have ha : ¬(a = c) := fun he => hc (he ▸ List.mem_cons_self a ps)
          simp [isPrefixStr]
          intro he
          exact absurd he ha
      | cons b bs =>
          simp only [List.cons_append, isPrefixStr, List.append_eq]
          rw [ih bs c (fun hm => hc (List.mem_cons_of_mem a hm))]

theorem findStub_snoc (c : Char) (hc : ¬(c ∈ s2l ("Stub"))) :
    ∀ s : Str, findStub (s ++ [c]) = findStub s := by
  intro s
  induction s with
  | nil =>
      show findStub [c] = none
      simp [findStub, isPrefixStr_append_single _ [] c hc, isPrefixStr]
  | cons a rest ih =>
      show findStub (a :: (rest ++ [c])) = findStub (a :: rest)
      simp only [findStub, ih]
      cases hfs : findStub rest with
      | some p => rfl
      | none =>
          rw [show a :: (rest ++ [c]) = (a :: rest) ++ [c] from rfl,
            isPrefixStr_append_single _ (a :: rest) c hc]

theorem findStub_isSome_of_contains : ∀ s : Str,
    containsSub s (s2l ("Stub")) = true → ∃ p, findStub s = some p := by
  intro s
  induction s with
  | nil => intro h; simp [containsSub, isPrefixStr] at h
  | cons c rest ih =>
      intro h
      simp only [containsSub, Bool.or_eq_true] at h
      cases hfs : findStub rest with
      | some p => exact ⟨c :: p, findStub_cons_some c rest p hfs⟩
      | none =>
          rcases h with hpre | hcont
          · exact ⟨[], by simp [findStub, hfs, hpre]⟩
          · rcases ih hcont with ⟨p, hp⟩
            rw [hp] at hfs
            cases hfs

theorem strIn_congr (h h2 : Heap) (hsh : ∀ id, shapeAt h2 id = shapeAt h id) :
    ∀ t : GType, strIn h2 t = strIn h t := by
  intro t
  induction t with
  | scalar n => rfl
  | ref id =>
      have := hsh id
      simp only [shapeAt] at this
      simp only [strIn]
      cases h1 : lookupA h2 id <;> cases h0 : lookupA h id <;>
        rw [h1, h0] at this <;> simp_all
  | list t ih => simp [strIn, ih]
  | nonNull t ih => simp [strIn, ih]

theorem nameIn_congr (h h2 : Heap) (hsh : ∀ id, shapeAt h2 id = shapeAt h id) :
    ∀ t : GType, nameIn h2 t = nameIn h t := by
  intro t
  cases t with
  | scalar n => rfl
  | ref id =>
      have := hsh id
      simp only [shapeAt] at this
      simp only [nameIn]
      cases h1 : lookupA h2 id <;> cases h0 : lookupA h id <;>
        rw [h1, h0] at this <;> simp_all
  | list t => simp [nameIn, strIn_congr h h2 hsh]
  | nonNull t => simp [nameIn, strIn_congr h h2 hsh]

theorem typeStubFree_congr (h h2 : Heap) (hsh : ∀ id, shapeAt h2 id = shapeAt h id) :
    ∀ t : GType, typeStubFree h2 t = typeStubFree h t := by
  intro t
  induction t with
  | scalar n => rfl
  | ref id =>
      have := hsh id
      simp only [shapeAt] at this
      simp only [typeStubFree]
      cases h1 : lookupA h2 id <;> cases h0 : lookupA h id <;>
        rw [h1, h0] at this <;> simp_all
  | list t ih => simp [typeStubFree, ih]
  | nonNull t ih => simp [typeStubFree, ih]

theorem refIsStub_congr (h h2 : Heap) (hsh : ∀ id, shapeAt h2 id = shapeAt h id) :
    ∀ t : GType, refIsStub h2 t = refIsStub h t := by
  intro t
  cases t with
  | scalar n => rfl
  | ref id =>
      have := hsh id
      simp only [shapeAt] at this
      simp only [refIsStub]
      cases h1 : lookupA h2 id <;> cases h0 : lookupA h id <;>
        rw [h1, h0] at this <;> simp_all
  | list t => rfl
  | nonNull t => rfl

theorem isPrefixStr_mono_append : ∀ (p s b : Str), isPrefixStr p s = true →
    isPrefixStr p (s ++ b) = true := by
  intro p
  induction p with
  | nil => intro s b _; rfl
  | cons a ps ih =>
      intro s b hpre
      cases s with
      | nil => simp [isPrefixStr] at hpre
      | cons x xs =>
          simp only [isPrefixStr, Bool.and_eq_true] at hpre
          simp only [List.cons_append, isPrefixStr, Bool.and_eq_true]
          exact ⟨hpre.1, ih xs b hpre.2⟩

theorem containsSub_mono_append (a b p : Str) (h : containsSub a p = true) :
    containsSub (a ++ b) p = true := by
  induction a with
  | nil =>
      cases p with
      | nil => cases b <;> simp [containsSub, isPrefixStr]
      | cons c cs => simp [containsSub, isPrefixStr] at h
  | cons x rest ih =>
      simp only [containsSub, Bool.or_eq_true] at h
      simp only [List.cons_append, containsSub, Bool.or_eq_true]
      rcases h with hpre | hcont
      · exact Or.inl (isPrefixStr_mono_append p (x :: rest) b hpre)
      · exact Or.inr (ih hcont)

theorem typeStubFree_false_contains (h : Heap)
    (hnamed : ∀ id obj, lookupA h id = some obj → obj.isStub = true →
      ∃ pre, obj.name = pre ++ s2l ("Stub")) :
    ∀ t : GType, typeStubFree h t = false →
      containsSub (strIn h t) (s2l ("Stub")) = true ∧
      containsSub (nameIn h t) (s2l ("Stub")) = true := by
  intro t
  induction t with
  | scalar n => intro hf; simp [typeStubFree] at hf
  | ref id =>
      intro hf
      simp only [typeStubFree] at hf
      cases h0 : lookupA h id with
      | none => rw [h0] at hf; simp at hf
      | some obj =>
          rw [h0] at hf
          simp only [Bool.not_eq_false'] at hf
          rcases hnamed id obj h0 (by simpa using hf) with ⟨pre, hpre⟩
          have hc : containsSub obj.name (s2l ("Stub")) = true := by
            rw [hpre]; exact containsSub_suffix pre _
          constructor
          · simpa [strIn, h0] using hc
          · simpa [nameIn, h0] using hc
  | list t ih =>
      intro hf
      simp only [typeStubFree] at hf
      rcases ih hf with ⟨hstr, _⟩
      constructor
      · show containsSub ('[' :: (strIn h t ++ [']'])) (s2l ("Stub")) = true
        simp [containsSub, containsSub_mono_append _ [']'] _ hstr]
      · exact hstr
  | nonNull t ih =>
      intro hf
      simp only [typeStubFree] at hf
      rcases ih hf with ⟨hstr, _⟩
      exact ⟨containsSub_mono_append _ ['!'] _ hstr,
        containsSub_mono_append _ ['!'] _ hstr⟩

theorem mem_of_lookupA {α : Type} [DecidableEq α] {β : Type} :
    ∀ (l : List (α × β)) (k : α) (v : β), lookupA l k = some v → (k, v) ∈ l := by
  intro l
  induction l with
  | nil => intro k v h; simp [lookupA] at h
  | cons hd tl ih =>
      intro k v h
      obtain ⟨a, b⟩ := hd
      by_cases ha : a = k
      · subst ha
        simp only [lookupA, if_pos rfl] at h
        injection h with h1
        subst h1
        exact List.mem_cons_self _ _
      · simp only [lookupA, if_neg ha] at h
        exact List.mem_cons_of_mem _ (ih k v h)

theorem lookupA_isSome_iff_mem_keys {α : Type} [DecidableEq α] {β : Type} :
    ∀ (l : List (α × β)) (k : α),
      (lookupA l k).isSome = true ↔ k ∈ l.map Prod.fst := by
  intro l
  induction l with
  | nil => intro k; simp [lookupA]
  | cons hd tl ih =>
      intro k
      obtain ⟨a, b⟩ := hd
      by_cases ha : a = k
      · subst ha
        simp [lookupA]
      · simp only [lookupA, if_neg ha, List.map_cons, List.mem_cons]
        rw [ih k]
        constructor
        · exact fun hm => Or.inr hm
        · rintro (he | hm)
          · exact absurd he.symm ha
          · exact hm

theorem mem_keys_removeA {α : Type} [DecidableEq α] {β : Type} :
    ∀ (l : List (α × β)) (k x : α),
      x ∈ (removeA l k).map Prod.fst → x ∈ l.map Prod.fst := by
  intro l
  induction l with
  | nil => intro k x h; simp [removeA] at h
  | cons hd tl ih =>
      intro k x h
      obtain ⟨a, b⟩ := hd
      by_cases ha : a = k
      · simp only [removeA, if_pos ha] at h
        exact List.mem_cons_of_mem _ (ih k x h)
      · simp only [removeA, if_neg ha, List.map_cons, List.mem_cons] at h
        rcases h with h | h
        · simp [h]
        · exact List.mem_cons_of_mem _ (ih k x h)

theorem removeA_nodupKeys {α : Type} [DecidableEq α] {β : Type} :
    ∀ (l : List (α × β)) (k : α), (l.map Prod.fst).Nodup →
      ((removeA l k).map Prod.fst).Nodup := by
  intro l
  induction l with
  | nil => intro k h; simp [removeA]
  | cons hd tl ih =>
      intro k h
      obtain ⟨a, b⟩ := hd
      simp only [List.map_cons, List.nodup_cons] at h
      by_cases ha : a = k
      · simp only [removeA, if_pos ha]
        exact ih k h.2
      · simp only [removeA, if_neg ha, List.map_cons, List.nodup_cons]
        exact ⟨fun hm => h.1 (mem_keys_removeA tl k a hm), ih k h.2⟩

theorem patchField_nodupKeys (registry : List (Str × GType)) (h : Heap)
    (isInput : Bool) (cur : List (Str × GField)) (k : Str) (fd : GField)
    (hnd : (cur.map Prod.fst).Nodup) :
    ((patchField registry h isInput cur k fd).map Prod.fst).Nodup := by
  unfold patchField
  dsimp only
  (repeat' split) <;>
    first
      | exact hnd
      | exact removeA_nodupKeys cur k hnd
      | exact insertA_nodupKeys _ _ _ (removeA_nodupKeys cur k hnd)

theorem patchFold_nodupKeys (registry : List (Str × GType)) (h : Heap)
    (isInput : Bool) :
    ∀ (snap cur : List (Str × GField)), (cur.map Prod.fst).Nodup →
      (((snap.foldl (fun c kv => patchField registry h isInput c kv.1 kv.2) cur)).map
        Prod.fst).Nodup := by
  intro snap
  induction snap with
  | nil => intro cur h0; exact h0
  | cons kv rest ih =>
      intro cur h0
      rw [List.foldl_cons]
      exact ih _ (patchField_nodupKeys registry h isInput cur kv.1 kv.2 h0)

theorem patchField_keys_sub (registry : List (Str × GType)) (h : Heap)
    (isInput : Bool) (cur : List (Str × GField)) (k : Str) (fd : GField) (x : Str) :
    x ∈ (patchField registry h isInput cur k fd).map Prod.fst →
      x ∈ cur.map Prod.fst ∨ x = k := by
  unfold patchField
  dsimp only
  (repeat' split) <;> intro hx
  · exact Or.inl hx
  · exact Or.inl (mem_keys_removeA cur k x hx)
  · rcases (mem_keys_insertA _ k _ x).1 hx with h2 | h2
    · exact Or.inl (mem_keys_removeA cur k x h2)
    · exact Or.inr h2
  · rcases (mem_keys_insertA _ k _ x).1 hx with h2 | h2
    · exact Or.inl (mem_keys_removeA cur k x h2)
    · exact Or.inr h2

theorem getType_stubFree (registry : List (Str × GType)) (h : Heap)
    (hvals : ∀ k τ, lookupA registry k = some τ → typeStubFree h τ = true)
    (base kn : Str) (ft : GType) (hok : getType registry base kn = .ok ft) :
    typeStubFree h ft = true := by
  unfold getType at hok
  cases hl : lookupA registry base with
  | none => rw [hl] at hok; cases hok
  | some v =>
      rw [hl] at hok
      dsimp only at hok
      have hv := hvals base v hl
      (repeat' split at hok) <;>
        (injection hok with h1) <;> rw [← h1] <;> simpa [typeStubFree] using hv

theorem patchObj_stubFree (registry : List (Str × GType)) (h : Heap) (obj : HObj)
    (hnd : (obj.fields.map Prod.fst).Nodup)
    (hnamed : ∀ id o, lookupA h id = some o → o.isStub = true →
      ∃ pre, o.name = pre ++ s2l ("Stub"))
    (hvals : ∀ k τ, lookupA registry k = some τ → typeStubFree h τ = true) :
    ∀ kv ∈ (patchObj registry h obj).fields, typeStubFree h kv.2.type = true := by
  intro kv hkv
  have hfinnd : (((patchObj registry h obj).fields).map Prod.fst).Nodup :=
    patchFold_nodupKeys registry h obj.isInput obj.fields obj.fields hnd
  obtain ⟨k, fd'⟩ := kv
  have hlk : lookupA (patchObj registry h obj).fields k = some fd' :=
    lookupA_of_mem_nodup _ k fd' hkv hfinnd
  by_cases hk : k ∈ obj.fields.map Prod.fst
  · have hsome : (lookupA obj.fields k).isSome = true :=
      (lookupA_isSome_iff_mem_keys _ _).2 hk
    cases hl : lookupA obj.fields k with
    | none => rw [hl] at hsome; cases hsome
    | some fd0 =>
        have hmem0 : (k, fd0) ∈ obj.fields := mem_of_lookupA _ _ _ hl
        have hspec := patchFold_spec registry h obj.isInput obj.fields obj.fields k fd0
          hmem0 hnd hl
        have hlk2 : lookupA ((obj.fields).foldl
            (fun c kv => patchField registry h obj.isInput c kv.1 kv.2) obj.fields) k =
            some fd' := hlk
        rw [hspec] at hlk2
        cases hfs : findStub (nameIn h fd0.type) with
        | none =>
            simp only [hfs] at hlk2
            injection hlk2 with h1
            subst h1
            cases hfree : typeStubFree h fd0.type with
            | true => rfl
            | false =>
                exfalso
                rcases typeStubFree_false_contains h hnamed fd0.type hfree with ⟨_, hcn⟩
                rcases findStub_isSome_of_contains _ hcn with ⟨p, hp⟩
                rw [hp] at hfs
                cases hfs
        | some base =>
            simp only [hfs] at hlk2
            cases hgt : getType registry base (strIn h fd0.type) with
            | error e =>
                simp only [hgt] at hlk2
                exact Option.noConfusion hlk2
            | ok ft =>
                simp only [hgt] at hlk2
                injection hlk2 with h1
                rw [← h1]
                have hft := getType_stubFree registry h hvals base _ ft hgt
                cases obj.isInput <;> simpa using hft
  · have hun : lookupA (patchObj registry h obj).fields k = lookupA obj.fields k := by
      apply patchFold_untouched
      intro x hx hxe
      exact hk (hxe ▸ List.mem_map_of_mem Prod.fst hx)
    have hnone : lookupA obj.fields k = none := by
      cases hl : lookupA obj.fields k with
      | none => rfl
      | some v =>
          exact absurd ((lookupA_isSome_iff_mem_keys _ _).1 (by simp [hl])) hk
    rw [hun, hnone] at hlk
    cases hlk

theorem patchObj_shape (registry : List (Str × GType)) (h : Heap) (obj : HObj) :
    (patchObj registry h obj).name = obj.name ∧
    (patchObj registry h obj).isStub = obj.isStub ∧
    (patchObj registry h obj).isInput = obj.isInput := ⟨rfl, rfl, rfl⟩

theorem shapeAt_insertA_same (h : Heap) (id : Nat) (obj obj2 : HObj)
    (hl : lookupA h id = some obj) (hn : obj2.name = obj.name)
    (hs : obj2.isStub = obj.isStub) :
    ∀ x, shapeAt (insertA h id obj2) x = shapeAt h x := by
  intro x
  by_cases hx : id = x
  · subst hx
    simp [shapeAt, lookupA_insertA_self, hl, hn, hs]
  · simp [shapeAt, lookupA_insertA_ne h id x obj2 hx]

theorem heapCleanAt_congr (h h2 : Heap) (id : Nat)
    (hsh : ∀ x, shapeAt h2 x = shapeAt h x)
    (hval : lookupA h2 id = lookupA h id) (hc : heapCleanAt h id) :
    heapCleanAt h2 id := by
  intro obj hobj fkv hf
  rw [typeStubFree_congr h h2 hsh]
  exact hc obj (hval ▸ hobj) fkv hf

theorem shape_isSome (h h2 : Heap) (id : Nat)
    (hsh : shapeAt h2 id = shapeAt h id) :
    (lookupA h2 id).isSome = (lookupA h id).isSome := by
  simp only [shapeAt] at hsh
  cases h1 : lookupA h2 id <;> cases h0 : lookupA h id <;>
    rw [h1, h0] at hsh <;> simp_all

theorem patchFoldHeap (reg : List (Str × GType)) :
    ∀ (l : List (Str × GType)) (h : Heap),
    (∀ id o, lookupA h id = some o → o.isStub = true →
      ∃ pre, o.name = pre ++ s2l ("Stub")) →
    (∀ k τ, lookupA reg k = some τ → typeStubFree h τ = true) →
    (∀ id o, lookupA h id = some o → ((o.fields.map Prod.fst).Nodup)) →
    (∀ id, shapeAt (l.foldl (patchStep reg) h) id = shapeAt h id) ∧
    (∀ id o, lookupA (l.foldl (patchStep reg) h) id = some o →
      ((o.fields.map Prod.fst).Nodup)) ∧
    (∀ id, heapCleanAt h id → heapCleanAt (l.foldl (patchStep reg) h) id) ∧
    (∀ kv ∈ l, ∀ id, kv.2 = GType.ref id → (lookupA h id).isSome = true →
      heapCleanAt (l.foldl (patchStep reg) h) id) := by
  intro l
  induction l with
  | nil =>
      intro h hnamed hvals hnd
      exact ⟨fun id => rfl, hnd, fun id hc => hc,
        fun kv hkv => absurd hkv (List.not_mem_nil kv)⟩
  | cons kv0 rest ih =>
      intro h hnamed hvals hnd
      rw [List.foldl_cons]
      by_cases hcase : ∃ id0 obj0, kv0.2 = GType.ref id0 ∧ lookupA h id0 = some obj0
      · rcases hcase with ⟨id0, obj0, hk2, hl0⟩
        have hstepeq : patchStep reg h kv0 = insertA h id0 (patchObj reg h obj0) := by
          simp [patchStep, hk2, hl0]
        have hshape : ∀ x, shapeAt (patchStep reg h kv0) x = shapeAt h x := by
          rw [hstepeq]
          exact shapeAt_insertA_same h id0 obj0 _ hl0 rfl rfl
        have hlook : ∀ x, ¬(x = id0) →
            lookupA (patchStep reg h kv0) x = lookupA h x := by
          intro x hx
          rw [hstepeq]
          exact lookupA_insertA_ne h id0 x _ (fun he => hx he.symm)
        have hlook0 : lookupA (patchStep reg h kv0) id0 = some (patchObj reg h obj0) := by
          rw [hstepeq]
          exact lookupA_insertA_self h id0 _
        have hnamed2 : ∀ id o, lookupA (patchStep reg h kv0) id = some o →
            o.isStub = true → ∃ pre, o.name = pre ++ s2l ("Stub") := by
          intro id o hlo hstub
          by_cases hid : id = id0
          · subst hid
            rw [hlook0] at hlo
            injection hlo with he
            subst he
            exact hnamed _ obj0 hl0 hstub
          · exact hnamed id o (by rw [← hlook id hid]; exact hlo) hstub
        have hvals2 : ∀ k τ, lookupA reg k = some τ →
            typeStubFree (patchStep reg h kv0) τ = true := by
          intro k τ hk
          rw [typeStubFree_congr h _ hshape]
          exact hvals k τ hk
        have hnd2 : ∀ id o, lookupA (patchStep reg h kv0) id = some o →
            ((o.fields.map Prod.fst).Nodup) := by
          intro id o hlo
          by_cases hid : id = id0
          · subst hid
            rw [hlook0] at hlo
            injection hlo with he
            subst he
            exact patchFold_nodupKeys reg h obj0.isInput obj0.fields obj0.fields
              (hnd _ obj0 hl0)
          · exact hnd id o (by rw [← hlook id hid]; exact hlo)
        have hclean0 : heapCleanAt (patchStep reg h kv0) id0 := by
          intro obj hobj fkv hf
          rw [hlook0] at hobj
          injection hobj with he
          subst he
          rw [typeStubFree_congr h _ hshape]
          exact patchObj_stubFree reg h obj0 (hnd _ obj0 hl0) hnamed hvals fkv hf
        rcases ih (patchStep reg h kv0) hnamed2 hvals2 hnd2 with ⟨i1, i2, i3, i4⟩
        refine ⟨fun id => (i1 id).trans (hshape id), i2, ?_, ?_⟩
        · intro id hc
          apply i3
          by_cases hid : id = id0
          · subst hid
            exact hclean0
          · exact heapCleanAt_congr h _ id hshape (hlook id hid) hc
        · intro kv hkv id hk2b hsome
          rcases List.mem_cons.mp hkv with hhd | htl
          · subst hhd
            rw [hk2b] at hk2
            injection hk2 with hid
            subst hid
            exact i3 _ hclean0
          · refine i4 kv htl id hk2b ?_
            rw [shape_isSome h (patchStep reg h kv0) id (hshape id)]
            exact hsome
      · have hstepeq : patchStep reg h kv0 = h := by
          rcases hk2 : kv0.2 with n | id | t | t
          · simp [patchStep, hk2]
          · cases hl0 : lookupA h id with
            | none => simp [patchStep, hk2, hl0]
            | some o => exact absurd ⟨id, o, hk2, hl0⟩ hcase
          · simp [patchStep, hk2]
          · simp [patchStep, hk2]
        rw [hstepeq]
        rcases ih h hnamed hvals hnd with ⟨i1, i2, i3, i4⟩
        refine ⟨i1, i2, i3, ?_⟩
        intro kv hkv id hk2b hsome
        rcases List.mem_cons.mp hkv with hhd | htl
        · subst hhd
          cases hl0 : lookupA h id with
          | none => rw [hl0] at hsome; cases hsome
          | some o => exact absurd ⟨id, o, hk2b, hl0⟩ hcase
        · exact i4 kv htl id hk2b hsome

theorem patchAll_clean (s : TM) (hnamed : StubsNamed s) (hnd : FieldKeysNodup s)
    (hlive : RegLive s)
    (hnostub : ∀ k τ, lookupA s.graphqlTypes k = some τ → refIsStub s.heap τ = false) :
    (∀ id, shapeAt (patchAll s).heap id = shapeAt s.heap id) ∧
    FieldKeysNodup (patchAll s) ∧
    StubCleanPred (patchAll s) := by
  have hvals : ∀ k τ, lookupA s.graphqlTypes k = some τ → typeStubFree s.heap τ = true := by
    intro k τ hk
    rcases hlive k τ hk with ⟨id, hτ, hsome⟩
    subst hτ
    have hns := hnostub k _ hk
    simp only [refIsStub] at hns
    simp only [typeStubFree]
    cases hl : lookupA s.heap id with
    | none => simp [hl]
    | some o =>
        rw [hl] at hns
        try simp at hns
        simp [hl, hns]
  rcases patchFoldHeap s.graphqlTypes s.graphqlTypes s.heap hnamed hvals hnd with
    ⟨i1, i2, i3, i4⟩
  refine ⟨i1, i2, ?_⟩
  intro k τ hk
  rcases hlive k τ hk with ⟨id, hτ, hsome⟩
  subst hτ
  have hsome2 : (lookupA (patchAll s).heap id).isSome = true := by
    have he := shape_isSome s.heap (patchAll s).heap id (i1 id)
    exact he.trans hsome
  cases hl2 : lookupA (patchAll s).heap id with
  | none => rw [hl2] at hsome2; cases hsome2
  | some obj2 =>
      refine ⟨id, obj2, rfl, hl2, ?_, ?_⟩
      · -- the shape (isStub flag) is preserved and was false
        have hns := hnostub k _ hk
        simp only [refIsStub] at hns
        have hsh := i1 id
        simp only [shapeAt] at hsh
        cases hl : lookupA s.heap id with
        | none => rw [hl] at hsome; cases hsome
        | some o =>
            rw [hl] at hns
            try simp at hns
            have hl2f : lookupA (List.foldl (patchStep s.graphqlTypes) s.heap
                s.graphqlTypes) id = some obj2 := hl2
            rw [hl2f, hl] at hsh
            simp only [Option.map_some'] at hsh
            injection hsh with hp
            have hsnd : obj2.isStub = o.isStub := congrArg Prod.snd hp
            rw [hsnd]
            exact hns
      · -- fields of the registered object are stub-free after the pass
        have hc := i4 (k, GType.ref id) (mem_of_lookupA _ _ _ hk) id rfl hsome
        have := hc obj2 hl2
        simp only [objFieldsStubFree, List.all_eq_true]
        intro fkv hf
        exact this fkv hf

theorem stateMono_refl (s : TM) : StateMono s s := by
  refine ⟨rfl, rfl, rfl, le_refl _, ?_, ?_, ?_, ?_, ?_⟩
  · exact fun k τ h1 h2 => ⟨h1, h2⟩
  · exact fun k h => h
  · exact fun id _ => rfl
  · intro k _ hnone τ2 hsome
    rw [hnone] at hsome
    cases hsome
  · intro k _ τ hτ hstub τ2 hτ2
    rw [hτ] at hτ2
    injection hτ2 with he
    subst he
    exact hstub

theorem stateMono_trans {s1 s2 s3 : TM} (a : StateMono s1 s2) (b : StateMono s2 s3) :
    StateMono s1 s3 := by
  obtain ⟨al, ap, at2, an, ans, ais, ash, ag, ast⟩ := a
  obtain ⟨bl, bp, bt, bn, bns, bis, bsh, bg, bst⟩ := b
  refine ⟨bl.trans al, bp.trans ap, bt.trans at2, an.trans bn, ?_, ?_, ?_, ?_, ?_⟩
  · intro k τ h1 h2
    rcases ans k τ h1 h2 with ⟨h3, h4⟩
    exact bns k τ h3 h4
  · exact fun k h => bis k (ais k h)
  · intro id h
    have h2 : (lookupA s2.heap id).isSome = true := by
      rw [shape_isSome s1.heap s2.heap id (ash id h)]
      exact h
    exact (bsh id h2).trans (ash id h)
  · intro k hk hnone τ2 h3
    have hk2 : k ∈ s2.parentTypes := ap ▸ hk
    cases hmid : lookupA s2.graphqlTypes k with
    | none => exact bg k hk2 hmid τ2 h3
    | some τm =>
        have hstubm := ag k hk hnone τm hmid
        exact bst k hk2 τm hmid hstubm τ2 h3
  · intro k hk τ h1 h2 τ2 h3
    have hk2 : k ∈ s2.parentTypes := ap ▸ hk
    have hsome2 : (lookupA s2.graphqlTypes k).isSome = true := ais k (by simp [h1])
    cases hmid : lookupA s2.graphqlTypes k with
    | none => rw [hmid] at hsome2; cases hsome2
    | some τm =>
        have hstubm := ast k hk τ h1 h2 τm hmid
        exact bst k hk2 τm hmid hstubm τ2 h3

theorem noNewStub_refl (s : TM) : NoNewStub s s := by
  intro k hnone τ2 hsome
  rw [hnone] at hsome
  cases hsome

theorem noNewStub_trans {s1 s2 s3 : TM} (h12 : NoNewStub s1 s2) (hm : StateMono s2 s3)
    (h23 : NoNewStub s2 s3) : NoNewStub s1 s3 := by
  intro k hnone τ3 hsome3
  cases hmid : lookupA s2.graphqlTypes k with
  | none => exact h23 k hmid τ3 hsome3
  | some τ2 =>
      have hf := h12 k hnone τ2 hmid
      rcases hm.2.2.2.2.1 k τ2 hmid hf with ⟨h4, h5⟩
      rw [h4] at hsome3
      injection hsome3 with he
      subst he
      exact h5

theorem goField_cases (env : Env) (recurse : TM → Option GoTy → Res) (st : TM)
    (g : StructField) :
    (∃ r, goFieldToGraphqlTypeAux env recurse st g = (r, st)) ∨
    (∃ a, goFieldToGraphqlTypeAux env recurse st g = recurse st a ∨
      (∃ out s1, recurse st a = (.ok out, s1) ∧
        goFieldToGraphqlTypeAux env recurse st g = (.ok (GType.list out), s1)) ∨
      (∃ e s1, recurse st a = (.error e, s1) ∧
        goFieldToGraphqlTypeAux env recurse st g = (.error e, s1))) := by
  unfold goFieldToGraphqlTypeAux faceToAnyAux
  dsimp only
  (repeat' split) <;>
    first
      | (left; exact ⟨_, rfl⟩)
      | (right; exact ⟨_, Or.inl rfl⟩)
      | (right; exact ⟨_, Or.inr (Or.inl ⟨_, _, by assumption, rfl⟩)⟩)
      | (right; exact ⟨_, Or.inr (Or.inr ⟨_, _, by assumption, rfl⟩)⟩)
      | simp_all

theorem goFieldFacts (env : Env) (recurse : TM → Option GoTy → Res)
    (st : TM) (g : StructField) (hinv : INV st)
    (hrec : ∀ a, FieldFacts st (recurse st a)) :
    FieldFacts st (goFieldToGraphqlTypeAux env recurse st g) := by
  rcases goField_cases env recurse st g with ⟨r, heq⟩ | ⟨a, heq | ⟨out, s1, hin, heq⟩ | ⟨e, s1, hin, heq⟩⟩
  · rw [heq]
    exact ⟨hinv, stateMono_refl st, fun e _ => noNewStub_refl st⟩
  · rw [heq]
    exact hrec a
  · rw [heq]
    have hF := hrec a
    rw [hin] at hF
    exact ⟨hF.1, hF.2.1, fun e2 he2 => Except.noConfusion he2⟩
  · rw [heq]
    have hF := hrec a
    rw [hin] at hF
    exact ⟨hF.1, hF.2.1, fun e2 _ => hF.2.2 e rfl⟩

theorem insertA_length_ge {α : Type} [DecidableEq α] {β : Type} :
    ∀ (l : List (α × β)) (k : α) (v : β), l.length ≤ (insertA l k v).length := by
  intro l
  induction l with
  | nil => intro k v; simp [insertA]
  | cons hd tl ih =>
      intro k v
      obtain ⟨a, b⟩ := hd
      by_cases h : a = k
      · simp [insertA, h]
      · simpa [insertA, h] using ih k v

theorem insertA_length_pos {α : Type} [DecidableEq α] {β : Type} :
    ∀ (l : List (α × β)) (k : α) (v : β), 0 < (insertA l k v).length := by
  intro l
  induction l with
  | nil => intro k v; simp [insertA]
  | cons hd tl ih =>
      intro k v
      obtain ⟨a, b⟩ := hd
      by_cases h : a = k
      · simp [insertA, h]
      · simp [insertA, h]

theorem marshalField_cases (env : Env) (classify : TM → StructField → Res)
    (acc : List (Str × GField) × TM) (f : StructField) :
    (∃ e s1, classify acc.2 f = (.error e, s1) ∧
      marshalField env classify acc f = (acc.1, s1)) ∨
    (∃ t0 s1 fdnew, classify acc.2 f = (.ok t0, s1) ∧
      marshalField env classify acc f = (insertA acc.1 f.name fdnew, s1)) := by
  rcases hcl : classify acc.2 f with ⟨r, s1⟩
  cases r with
  | error e => exact Or.inl ⟨e, s1, rfl, by simp [marshalField, hcl]⟩
  | ok t0 =>
      right
      refine ⟨t0, s1, ?_, rfl, ?_⟩
      · exact if s1.targetType == TargetType.output then
          { name := f.name,
            type := (if f.tagRequired == s2l ("true") && f.ty.kind == GoKind.ptr then
              GType.nonNull t0 else t0),
            description := f.tagDescription,
            resolve := env.resolverFinder (shortTypeName f.ty) f.tagReplace,
            deprecationReason := [], defaultValue := none }
        else
          { name := f.name,
            type := (if f.tagRequired == s2l ("true") && f.ty.kind == GoKind.ptr then
              GType.nonNull t0 else t0),
            description := f.tagDescription, resolve := none,
            deprecationReason := [], defaultValue := none }
      · simp only [marshalField, hcl]
        cases hm : s1.targetType <;> simp [hm]

theorem foldFacts (env : Env) (classify : TM → StructField → Res)
    (P : List Str) (M : TargetType)
    (hcl : ∀ st g, INV st → st.parentTypes = P → st.targetType = M →
      FieldFacts st (classify st g)) :
    ∀ (fs : List StructField) (acc : List (Str × GField) × TM),
      INV acc.2 → acc.2.parentTypes = P → acc.2.targetType = M →
      INV (fs.foldl (marshalField env classify) acc).2 ∧
      StateMono acc.2 (fs.foldl (marshalField env classify) acc).2 ∧
      acc.1.length ≤ (fs.foldl (marshalField env classify) acc).1.length ∧
      ((fs.foldl (marshalField env classify) acc).1 = [] →
        NoNewStub acc.2 (fs.foldl (marshalField env classify) acc).2) := by
  intro fs
  induction fs with
  | nil =>
      intro acc hinv hp ht
      exact ⟨hinv, stateMono_refl _, le_refl _, fun _ => noNewStub_refl _⟩
  | cons g gs ih =>
      intro acc hinv hp ht
      rw [List.foldl_cons]
      have hF := hcl acc.2 g hinv hp ht
      rcases marshalField_cases env classify acc g with
        ⟨e, s1, hclr, hstep⟩ | ⟨t0, s1, fdnew, hclr, hstep⟩
      · rw [hclr] at hF
        have hinv1 : INV s1 := hF.1
        have hmono1 : StateMono acc.2 s1 := hF.2.1
        have hp1 : s1.parentTypes = P := hmono1.2.1.trans hp
        have ht1 : s1.targetType = M := hmono1.2.2.1.trans ht
        rcases ih (acc.1, s1) hinv1 hp1 ht1 with ⟨i1, i2, i3, i4⟩
        rw [hstep]
        refine ⟨i1, stateMono_trans hmono1 i2, i3, ?_⟩
        intro hempty
        exact noNewStub_trans (hF.2.2 e rfl) i2 (i4 hempty)
      · rw [hclr] at hF
        have hinv1 : INV s1 := hF.1
        have hmono1 : StateMono acc.2 s1 := hF.2.1
        have hp1 : s1.parentTypes = P := hmono1.2.1.trans hp
        have ht1 : s1.targetType = M := hmono1.2.2.1.trans ht
        rcases ih (insertA acc.1 g.name fdnew, s1) hinv1 hp1 ht1 with ⟨i1, i2, i3, i4⟩
        rw [hstep]
        refine ⟨i1, stateMono_trans hmono1 i2, ?_, ?_⟩
        · exact le_trans (le_trans (insertA_length_ge acc.1 g.name fdnew) i3) (le_refl _)
        · intro hempty
          exfalso
          have hlen := i3
          rw [hempty] at hlen
          simp at hlen
          have hpos := insertA_length_pos acc.1 g.name fdnew
          rw [hlen] at hpos
          exact Nat.lt_irrefl 0 hpos

theorem filter_ne_of_not_mem (l : List Str) (k : Str) (h : ¬(k ∈ l)) :
    l.filter (fun n => !(n == k)) = l := by
  induction l with
  | nil => rfl
  | cons a as ih =>
      have ha : ¬(a = k) := fun he => h (he ▸ List.mem_cons_self a as)
      have hb : (!(a == k)) = true := by simp [ha]
      simp only [List.filter_cons, hb, if_true]
      rw [ih (fun hm => h (List.mem_cons_of_mem a hm))]

theorem unwind_parents_eq (parents : List Str) (SN : Str) (h : ¬(SN ∈ parents)) :
    (SN :: parents).filter (fun n => !(n == SN)) = parents := by
  have hb : (!(SN == SN)) = false := by simp
  simp only [List.filter_cons, hb]
  exact filter_ne_of_not_mem parents SN h

theorem lookupA_insertA_isSome {α : Type} [DecidableEq α] {β : Type}
    (l : List (α × β)) (k : α) (v : β) (k2 : α)
    (h : (lookupA l k2).isSome = true) :
    (lookupA (insertA l k v) k2).isSome = true := by
  by_cases hk : k = k2
  · subst hk
    simp [lookupA_insertA_self]
  · rw [lookupA_insertA_ne l k k2 v hk]
    exact h

theorem shapeAt_insertA_other (h : Heap) (id : Nat) (obj : HObj) (x : Nat)
    (hx : ¬(id = x)) : shapeAt (insertA h id obj) x = shapeAt h x := by
  simp [shapeAt, lookupA_insertA_ne h id x obj hx]

theorem heapFresh_none_of_ge (s : TM) (hfr : HeapFresh s) (id : Nat)
    (hid : s.nextId ≤ id) : lookupA s.heap id = none := by
  cases hl : lookupA s.heap id with
  | none => rfl
  | some o =>
      have := hfr id (by simp [hl])
      exact absurd (Nat.lt_of_le_of_lt hid this) (Nat.lt_irrefl s.nextId)

theorem refIsStub_insert_fresh (h : Heap) (id : Nat) (obj : HObj) (t : GType)
    (ht : ∀ id2, t = GType.ref id2 → ¬(id = id2)) :
    refIsStub (insertA h id obj) t = refIsStub h t := by
  cases t with
  | scalar n => rfl
  | ref id2 =>
      simp only [refIsStub]
      rw [lookupA_insertA_ne h id id2 obj (ht id2 rfl)]
  | list t2 => rfl
  | nonNull t2 => rfl

theorem fold_marshal_nodup (env : Env) (classify : TM → StructField → Res) :
    ∀ (fs : List StructField) (acc : List (Str × GField) × TM),
      ((acc.1.map Prod.fst).Nodup) →
      (((fs.foldl (marshalField env classify) acc).1.map Prod.fst).Nodup) := by
  intro fs
  induction fs with
  | nil => intro acc h; exact h
  | cons g gs ih =>
      intro acc h
      rw [List.foldl_cons]
      rcases marshalField_cases env classify acc g with
        ⟨e, s1, _, hstep⟩ | ⟨t0, s1, fdnew, _, hstep⟩
      · rw [hstep]
        exact ih (acc.1, s1) h
      · rw [hstep]
        exact ih (insertA acc.1 g.name fdnew, s1) (insertA_nodupKeys acc.1 g.name fdnew h)

theorem filter_length_mono {α : Type} :
    ∀ (l : List α) (p q : α → Bool), (∀ a ∈ l, q a = true → p a = true) →
      (l.filter q).length ≤ (l.filter p).length := by
  intro l
  induction l with
  | nil => intro p q _; exact le_refl _
  | cons b bs ih =>
      intro p q himp
      have htl := ih p q (fun a ha => himp a (List.mem_cons_of_mem b ha))
      cases hq : q b with
      | true =>
          have hp : p b = true := himp b (List.mem_cons_self b bs) hq
          simp only [List.filter_cons, hq, hp, if_true]
          simpa using htl
      | false =>
          cases hp : p b with
          | true =>
              simp only [List.filter_cons, hq, hp]
              simp only [if_true, if_false, List.length_cons]
              exact Nat.le_succ_of_le htl
          | false =>
              simp only [List.filter_cons, hq, hp, if_false]
              exact htl

theorem filter_length_strict {α : Type} :
    ∀ (l : List α) (p q : α → Bool), (∀ a ∈ l, q a = true → p a = true) →
      ∀ a0, a0 ∈ l → p a0 = true → q a0 = false →
      (l.filter q).length < (l.filter p).length := by
  intro l
  induction l with
  | nil => intro p q _ a0 ha0; exact absurd ha0 (List.not_mem_nil a0)
  | cons b bs ih =>
      intro p q himp a0 ha0 hp0 hq0
      have htlmono := filter_length_mono bs p q
        (fun a ha => himp a (List.mem_cons_of_mem b ha))
      rcases List.mem_cons.mp ha0 with he | hm
      · subst he
        simp only [List.filter_cons, hp0, hq0, if_true, if_false, List.length_cons]
        exact Nat.lt_succ_of_le htlmono
      · have htl := ih p q (fun a ha => himp a (List.mem_cons_of_mem b ha)) a0 hm hp0 hq0
        cases hq : q b with
        | true =>
            have hp : p b = true := himp b (List.mem_cons_self b bs) hq
            simp only [List.filter_cons, hq, hp, if_true, List.length_cons]
            exact Nat.succ_lt_succ htl
        | false =>
            cases hp : p b with
            | true =>
                simp only [List.filter_cons, hq, hp, if_true, if_false, List.length_cons]
                exact Nat.lt_succ_of_lt htl
            | false =>
                simp only [List.filter_cons, hq, hp, if_false]
                exact htl

theorem measureTM_pins (env : Env) (st : TM) (P : List Str) (M : TargetType)
    (hp : st.parentTypes = P) (ht : st.targetType = M) :
    measureTM env st =
      ((env.structs.map Prod.fst).filter
        (fun n => decide (¬(keyFor M n ∈ P)))).length := by
  unfold measureTM
  rw [hp, ht]

theorem measure_push_lt (env : Env) (M : TargetType) (parents : List Str) (base : Str)
    (hmem : base ∈ env.structs.map Prod.fst)
    (hnot : ¬(keyFor M base ∈ parents)) :
    ((env.structs.map Prod.fst).filter
      (fun n => decide (¬(keyFor M n ∈ keyFor M base :: parents)))).length <
    ((env.structs.map Prod.fst).filter
      (fun n => decide (¬(keyFor M n ∈ parents)))).length := by
  apply filter_length_strict (env.structs.map Prod.fst)
    (fun n => decide (¬(keyFor M n ∈ parents)))
    (fun n => decide (¬(keyFor M n ∈ keyFor M base :: parents)))
  · intro a _ hq
    simp only [decide_eq_true_eq] at hq ⊢
    exact fun hmem2 => hq (List.mem_cons_of_mem _ hmem2)
  · exact hmem
  · simpa using hnot
  · simp

theorem fieldsOf_ne_nil_mem (env : Env) (t : GoTy) (h : ¬(fieldsOf env t = [])) :
    t.structName ∈ env.structs.map Prod.fst := by
  cases t with
  | structT n =>
      show n ∈ env.structs.map Prod.fst
      cases hl : lookupA env.structs n with
      | none =>
          exfalso
          apply h
          simp [fieldsOf, hl]
      | some fs =>
          rw [← lookupA_isSome_iff_mem_keys]
          simp [hl]
  | prim k => exact absurd rfl h
  | sliceOf e => exact absurd rfl h
  | ptrTo e => exact absurd rfl h
  | ifaceT n o => exact absurd rfl h
  | timeTime => exact absurd rfl h
  | objectID => exact absurd rfl h

theorem INV_initial : INV TM.initial := by
  refine ⟨?_, ?_, ?_, ?_, ?_, fun _ => rfl, ?_⟩
  · intro id h
    simp [TM.initial, lookupA] at h
  · intro k τ h
    simp [TM.initial, lookupA] at h
  · intro id obj h
    simp [TM.initial, lookupA] at h
  · intro id obj h
    simp [TM.initial, lookupA] at h
  · intro k τ h
    simp [TM.initial, lookupA] at h
  · intro _ k τ h
    simp [TM.initial, lookupA] at h

theorem callFacts_same (s : TM) (arg : Option GoTy) (r : Except CompErr GType)
    (hinv : INV s) : CallFacts s arg (r, s) := by
  refine ⟨hinv, fun _ => stateMono_refl s, rfl, rfl, le_refl _, ?_, ?_, ?_, ?_, ?_⟩
  · exact fun k τ h1 h2 => ⟨h1, h2⟩
  · exact fun k h => h
  · exact fun id _ => rfl
  · exact fun e _ => noNewStub_refl s
  · exact fun t0 e _ _ h => h

theorem step_none_eq (env : Env) (recurse : TM → Option GoTy → Res) (s : TM) :
    goToGraphqlTypeStep env recurse s none = (.error .nilInput, s) := rfl

theorem step_notstruct_eq (env : Env) (recurse : TM → Option GoTy → Res) (s : TM)
    (t0 : GoTy) (h : ¬((derefArg t0).kind = .struct)) :
    goToGraphqlTypeStep env recurse s (some t0) = (.error .notStruct, s) := by
  unfold goToGraphqlTypeStep
  simp [h]

theorem step_emptyname_eq (env : Env) (recurse : TM → Option GoTy → Res) (s : TM)
    (t0 : GoTy) (hk : (derefArg t0).kind = .struct)
    (hn : (derefArg t0).structName = []) :
    goToGraphqlTypeStep env recurse s (some t0) = (.error .emptyName, s) := by
  unfold goToGraphqlTypeStep
  simp [hk, hn]

theorem step_memo_eq (env : Env) (recurse : TM → Option GoTy → Res) (s : TM)
    (t0 : GoTy) (cached : GType) (hk : (derefArg t0).kind = .struct)
    (hn : ¬((derefArg t0).structName = []))
    (hc : lookupA s.graphqlTypes (registryKey s.targetType t0) = some cached) :
    goToGraphqlTypeStep env recurse s (some t0) = (.ok cached, s) := by
  unfold goToGraphqlTypeStep
  simp [hk, hn, hc]

theorem step_stub_eq (env : Env) (recurse : TM → Option GoTy → Res) (s : TM)
    (t0 : GoTy) (hk : (derefArg t0).kind = .struct)
    (hn : ¬((derefArg t0).structName = []))
    (hlk : lookupA s.graphqlTypes (registryKey s.targetType t0) = none)
    (hmem : registryKey s.targetType t0 ∈ s.parentTypes) :
    goToGraphqlTypeStep env recurse s (some t0) =
      (.ok (GType.ref s.nextId),
       { s with
         heap := insertA s.heap s.nextId
           { name := registryKey s.targetType t0 ++ s2l ("Stub"),
             isInput := s.targetType == .input, isStub := true,
             fields := [(s2l ("aField"),
               { name := s2l ("aField"), type := GInt, description := [],
                 resolve := none, deprecationReason := [], defaultValue := none })] },
         nextId := s.nextId + 1,
         graphqlTypes := insertA s.graphqlTypes (registryKey s.targetType t0)
           (GType.ref s.nextId) }) := by
  unfold goToGraphqlTypeStep
  simp [hk, hn, hlk, hmem]

theorem step_main_eq (env : Env) (recurse : TM → Option GoTy → Res) (s : TM)
    (t0 : GoTy) (hk : (derefArg t0).kind = .struct)
    (hn : ¬((derefArg t0).structName = []))
    (hlk : lookupA s.graphqlTypes (registryKey s.targetType t0) = none)
    (hmem : ¬(registryKey s.targetType t0 ∈ s.parentTypes)) :
    goToGraphqlTypeStep env recurse s (some t0) =
      (let res := processFields env
         (fun st f => goFieldToGraphqlTypeAux env recurse st f)
         { s with parentTypes := registryKey s.targetType t0 :: s.parentTypes,
                  level := s.level + 1 }
         (fieldsOf env (derefArg t0))
       if res.1.isEmpty then
         (.error (.emptyRecord (registryKey s.targetType t0)),
          unwindStage res.2 (registryKey s.targetType t0))
       else
         (.ok (GType.ref res.2.nextId),
          unwindStage
            { res.2 with
              heap := insertA res.2.heap res.2.nextId
                { name := registryKey s.targetType t0,
                  isInput := res.2.targetType == .input, isStub := false,
                  fields := res.1 },
              nextId := res.2.nextId + 1,
              graphqlTypes := insertA res.2.graphqlTypes
                (registryKey s.targetType t0) (GType.ref res.2.nextId) }
            (registryKey s.targetType t0))) := by
  unfold goToGraphqlTypeStep
  simp [hk, hn, hlk, hmem]

theorem callFacts_of_mono (s : TM) (arg : Option GoTy) (res : Res)
    (hinv2 : INV res.2) (hmono : StateMono s res.2)
    (hnns : ∀ e, res.1 = Except.error e → NoNewStub s res.2)
    (hM13 : ∀ t1 e, arg = some t1 → res.1 = Except.error e →
      lookupA s.graphqlTypes (registryKey s.targetType t1) = none →
      lookupA res.2.graphqlTypes (registryKey s.targetType t1) = none) :
    CallFacts s arg res :=
  ⟨hinv2, fun _ => hmono, hmono.1, hmono.2.2.1, hmono.2.2.2.1,
   hmono.2.2.2.2.1, hmono.2.2.2.2.2.1, hmono.2.2.2.2.2.2.1, hnns, hM13⟩

theorem stub_branch_callFacts (env : Env) (recurse : TM → Option GoTy → Res) (s : TM)
    (t0 : GoTy) (hinv : INV s)
    (hk : (derefArg t0).kind = .struct)
    (hn : ¬((derefArg t0).structName = []))
    (hlk : lookupA s.graphqlTypes (registryKey s.targetType t0) = none)
    (hmem : registryKey s.targetType t0 ∈ s.parentTypes) :
    CallFacts s (some t0) (goToGraphqlTypeStep env recurse s (some t0)) := by
  rw [step_stub_eq env recurse s t0 hk hn hlk hmem]
  obtain ⟨hfr, hlive, hnamed, hnd, hguard, hroots, hclean⟩ := hinv
  have hlevne : ¬(s.level = 0) := by
    intro h0
    rw [hroots h0] at hmem
    exact absurd hmem (List.not_mem_nil _)
  have hfresh : lookupA s.heap s.nextId = none :=
    heapFresh_none_of_ge s hfr s.nextId (le_refl _)
  -- abbreviations for the new state components
  apply callFacts_of_mono
  case hnns => intro e he; exact Except.noConfusion he
  case hM13 => intro t1 e _ he; exact absurd he (by simp)
  case hinv2 =>
    refine ⟨?_, ?_, ?_, ?_, ?_, ?_, ?_⟩
    · -- HeapFresh
      intro id hs
      by_cases hid : s.nextId = id
      · subst hid
        exact Nat.lt_succ_self _
      · rw [show (lookupA (insertA s.heap s.nextId _) id) = lookupA s.heap id from
          lookupA_insertA_ne _ _ _ _ hid] at hs
        exact Nat.lt_succ_of_lt (hfr id hs)
    · -- RegLive
      intro k τ hkτ
      by_cases hks : registryKey s.targetType t0 = k
      · subst hks
        rw [lookupA_insertA_self] at hkτ
        injection hkτ with he
        subst he
        exact ⟨s.nextId, rfl, by simp [lookupA_insertA_self]⟩
      · rw [lookupA_insertA_ne _ _ _ _ hks] at hkτ
        rcases hlive k τ hkτ with ⟨id2, hτ, hsome⟩
        refine ⟨id2, hτ, ?_⟩
        exact lookupA_insertA_isSome _ _ _ _ hsome
    · -- StubsNamed
      intro id o hlo hstub
      by_cases hid : s.nextId = id
      · subst hid
        rw [lookupA_insertA_self] at hlo
        injection hlo with he
        subst he
        exact ⟨registryKey s.targetType t0, rfl⟩
      · rw [lookupA_insertA_ne _ _ _ _ hid] at hlo
        exact hnamed id o hlo hstub
    · -- FieldKeysNodup
      intro id o hlo
      by_cases hid : s.nextId = id
      · subst hid
        rw [lookupA_insertA_self] at hlo
        injection hlo with he
        subst he
        simp
      · rw [lookupA_insertA_ne _ _ _ _ hid] at hlo
        exact hnd id o hlo
    · -- StubKeysGuarded
      intro k τ hkτ hstub
      by_cases hks : registryKey s.targetType t0 = k
      · subst hks
        exact hmem
      · rw [lookupA_insertA_ne _ _ _ _ hks] at hkτ
        rcases hlive k τ hkτ with ⟨id2, hτ, hsome⟩
        subst hτ
        have hne : ∀ id3, (GType.ref id2 : GType) = GType.ref id3 → ¬(s.nextId = id3) := by
          intro id3 h3
          injection h3 with h4
          subst h4
          intro he
          rw [← he] at hsome
          rw [hfresh] at hsome
          cases hsome
        rw [refIsStub_insert_fresh _ _ _ _ hne] at hstub
        exact hguard k _ hkτ hstub
    · -- level zero: impossible here
      intro h0
      exact absurd h0 hlevne
    · intro h0
      exact absurd h0 hlevne
  case hmono =>
    refine ⟨rfl, rfl, rfl, Nat.le_succ _, ?_, ?_, ?_, ?_, ?_⟩
    · -- non-stub entries persist
      intro k τ h1 h2
      have hks : ¬(registryKey s.targetType t0 = k) := by
        intro he
        rw [← he] at h1
        rw [hlk] at h1
        cases h1
      rcases hlive k τ h1 with ⟨id2, hτ, hsome⟩
      subst hτ
      have hne : ∀ id3, (GType.ref id2 : GType) = GType.ref id3 → ¬(s.nextId = id3) := by
        intro id3 h3
        injection h3 with h4
        subst h4
        intro he
        rw [← he] at hsome
        rw [hfresh] at hsome
        cases hsome
      constructor
      · rw [lookupA_insertA_ne _ _ _ _ hks]
        exact h1
      · rw [refIsStub_insert_fresh _ _ _ _ hne]
        exact h2
    · -- isSome persists
      intro k h1
      exact lookupA_insertA_isSome _ _ _ _ h1
    · -- shapes persist
      intro id h1
      have hne : ¬(s.nextId = id) := by
        intro he
        rw [← he] at h1
        rw [hfresh] at h1
        cases h1
      exact shapeAt_insertA_other _ _ _ _ hne
    · -- fresh entry under an in-progress name is a stub
      intro k hkp hnone τ2 h2
      by_cases hks : registryKey s.targetType t0 = k
      · subst hks
        rw [lookupA_insertA_self] at h2
        injection h2 with he
        subst he
        simp [refIsStub, lookupA_insertA_self]
      · rw [lookupA_insertA_ne _ _ _ _ hks] at h2
        rw [hnone] at h2
        cases h2
    · -- persisting stub entries under in-progress names stay stubs
      intro k hkp τ h1 hstub τ2 h2
      have hks : ¬(registryKey s.targetType t0 = k) := by
        intro he
        rw [← he] at h1
        rw [hlk] at h1
        cases h1
      rw [lookupA_insertA_ne _ _ _ _ hks] at h2
      rw [h1] at h2
      injection h2 with he
      subst he
      cases τ with
      | scalar n => simp [refIsStub] at hstub
      | list t2 => simp [refIsStub] at hstub
      | nonNull t2 => simp [refIsStub] at hstub
      | ref id2 =>
          simp only [refIsStub] at hstub ⊢
          cases hl2 : lookupA s.heap id2 with
          | none => rw [hl2] at hstub; simp at hstub
          | some o =>
              have hne : ¬(s.nextId = id2) := by
                intro he
                rw [← he] at hl2
                rw [hfresh] at hl2
                cases hl2
              rw [lookupA_insertA_ne _ _ _ _ hne, hl2]
              rw [hl2] at hstub
              exact hstub

theorem unwind_facts (s sX : TM) (SN : Str)
    (hinv : INV s) (hinvX : INV sX)
    (hmem : ¬(SN ∈ s.parentTypes))
    (hXp : sX.parentTypes = SN :: s.parentTypes)
    (hXl : sX.level = s.level + 1)
    (hXt : sX.targetType = s.targetType)
    (hXn : s.nextId ≤ sX.nextId)
    (hXM5 : ∀ k τ, lookupA s.graphqlTypes k = some τ → refIsStub s.heap τ = false →
      lookupA sX.graphqlTypes k = some τ ∧ refIsStub sX.heap τ = false)
    (hXM6 : ∀ k, (lookupA s.graphqlTypes k).isSome = true →
      (lookupA sX.graphqlTypes k).isSome = true)
    (hXM7 : ∀ id, (lookupA s.heap id).isSome = true →
      shapeAt sX.heap id = shapeAt s.heap id)
    (hXM8 : ∀ k, k ∈ s.parentTypes → lookupA s.graphqlTypes k = none →
      ∀ τ2, lookupA sX.graphqlTypes k = some τ2 → refIsStub sX.heap τ2 = true)
    (hXM9 : ∀ k, k ∈ s.parentTypes → ∀ τ, lookupA s.graphqlTypes k = some τ →
      refIsStub s.heap τ = true →
      ∀ τ2, lookupA sX.graphqlTypes k = some τ2 → refIsStub sX.heap τ2 = true)
    (hSN : ∀ τ2, lookupA sX.graphqlTypes SN = some τ2 → refIsStub sX.heap τ2 = false) :
    StateMono s (unwindStage sX SN) ∧
    INV (unwindStage sX SN) ∧
    (unwindStage sX SN).graphqlTypes = sX.graphqlTypes ∧
    (∀ τ, refIsStub (unwindStage sX SN).heap τ = refIsStub sX.heap τ) := by
  have hfil : sX.parentTypes.filter (fun n => !(n == SN)) = s.parentTypes := by
    rw [hXp]
    exact unwind_parents_eq _ _ hmem
  have hueq : unwindStage sX SN =
      (if s.level == 0 then
        { patchAll { sX with parentTypes := s.parentTypes, level := s.level } with
          parentTypes := [] }
       else { sX with parentTypes := s.parentTypes, level := s.level }) := by
    unfold unwindStage
    rw [hfil, hXl]
    simp only [Nat.add_sub_cancel]
  obtain ⟨hfrX, hliveX, hnamedX, hndX, hguardX, _, _⟩ := hinvX
  by_cases hlvl : s.level = 0
  · -- root exit: the patch pass runs and the in-progress set is cleared
    have hroots : s.parentTypes = [] := hinv.2.2.2.2.2.1 hlvl
    have hcond : (s.level == 0) = true := by simp [hlvl]
    rw [hueq, if_pos (by simp [hlvl])]
    have hnostub : ∀ k τ,
        lookupA ({ sX with
          parentTypes := s.parentTypes,
          level := s.level } : TM).graphqlTypes k = some τ →
        refIsStub ({ sX with
          parentTypes := s.parentTypes,
          level := s.level } : TM).heap τ = false := by
      intro k τ hkτ
      cases hstub : refIsStub sX.heap τ with
      | false => rfl
      | true =>
          exfalso
          have hk := hguardX k τ hkτ hstub
          rw [hXp, hroots] at hk
          rcases List.mem_cons.mp hk with he | hz
          · subst he
            rw [hSN τ hkτ] at hstub
            cases hstub
          · exact absurd hz (List.not_mem_nil _)
    rcases patchAll_clean { sX with parentTypes := s.parentTypes, level := s.level }
      hnamedX hndX hliveX hnostub with ⟨hshape, hnodup, hcleanP⟩
    have hrefc : ∀ τ,
        refIsStub (patchAll { sX with
          parentTypes := s.parentTypes,
          level := s.level } : TM).heap τ = refIsStub sX.heap τ :=
      refIsStub_congr sX.heap _ hshape
    have hsomec : ∀ id,
        (lookupA (patchAll { sX with
          parentTypes := s.parentTypes,
          level := s.level } : TM).heap id).isSome = (lookupA sX.heap id).isSome :=
      fun id => shape_isSome sX.heap _ id (hshape id)
    refine ⟨⟨rfl, hroots.symm, hXt, hXn, ?_, hXM6, ?_, ?_, ?_⟩,
      ⟨?_, ?_, ?_, hnodup, ?_, fun _ => rfl, fun _ => hcleanP⟩, rfl, hrefc⟩
    · intro k τ h1 h2
      rcases hXM5 k τ h1 h2 with ⟨h3, h4⟩
      exact ⟨h3, by rw [hrefc]; exact h4⟩
    · intro id h1
      exact (hshape id).trans (hXM7 id h1)
    · intro k hk
      rw [hroots] at hk
      exact absurd hk (List.not_mem_nil _)
    · intro k hk
      rw [hroots] at hk
      exact absurd hk (List.not_mem_nil _)
    · -- HeapFresh
      intro id h1
      rw [hsomec id] at h1
      exact hfrX id h1
    · -- RegLive
      intro k τ hkτ
      rcases hliveX k τ hkτ with ⟨id2, hτ, hsome⟩
      exact ⟨id2, hτ, by rw [hsomec id2]; exact hsome⟩
    · -- StubsNamed
      intro id o hlo hstub
      have hs := hshape id
      simp only [shapeAt, hlo] at hs
      cases hX : lookupA sX.heap id with
      | none =>
          rw [hX] at hs
          simp at hs
      | some o0 =>
          rw [hX] at hs
          simp only [Option.map_some'] at hs
          injection hs with hp
          have hname : o.name = o0.name := congrArg Prod.fst hp
          have hsf : o.isStub = o0.isStub := congrArg Prod.snd hp
          rw [hsf] at hstub
          rcases hnamedX id o0 hX hstub with ⟨pre, hpre⟩
          exact ⟨pre, by rw [hname, hpre]⟩
    · -- StubKeysGuarded
      intro k τ hkτ hstub
      rw [hrefc] at hstub
      exact absurd hkτ (fun hkτ2 => by
        have := hnostub k τ hkτ2
        rw [this] at hstub
        cases hstub)
  · -- nested exit: only the in-progress set and level are restored
    rw [hueq, if_neg (by simp [hlvl])]
    refine ⟨⟨rfl, rfl, hXt, hXn, hXM5, hXM6, hXM7, hXM8, hXM9⟩,
      ⟨hfrX, hliveX, hnamedX, hndX, ?_, ?_, ?_⟩, rfl, fun τ => rfl⟩
    · intro k τ hkτ hstub
      have hk := hguardX k τ hkτ hstub
      rw [hXp] at hk
      rcases List.mem_cons.mp hk with he | hz
      · subst he
        rw [hSN τ hkτ] at hstub
        cases hstub
      · exact hz
    · intro h0
      exact absurd h0 hlvl
    · intro h0
      exact absurd h0 hlvl

theorem refIsStub_true_insert (h : Heap) (nid : Nat) (obj : HObj)
    (hfresh : lookupA h nid = none) (t : GType)
    (ht : refIsStub h t = true) : refIsStub (insertA h nid obj) t = true := by
  cases t with
  | scalar n => simp [refIsStub] at ht
  | list t2 => simp [refIsStub] at ht
  | nonNull t2 => simp [refIsStub] at ht
  | ref id2 =>
      simp only [refIsStub] at ht ⊢
      cases hl2 : lookupA h id2 with
      | none => rw [hl2] at ht; simp at ht
      | some o =>
          have hne : ¬(nid = id2) := by
            intro he
            rw [← he] at hl2
            rw [hfresh] at hl2
            cases hl2
          rw [lookupA_insertA_ne _ _ _ _ hne, hl2]
          rw [hl2] at ht
          exact ht

theorem step_main_facts (env : Env) (recurse : TM → Option GoTy → Res) (s : TM)
    (t0 : GoTy) (hinv : INV s)
    (hk : (derefArg t0).kind = .struct)
    (hn : ¬((derefArg t0).structName = []))
    (hlk : lookupA s.graphqlTypes (registryKey s.targetType t0) = none)
    (hmem : ¬(registryKey s.targetType t0 ∈ s.parentTypes))
    (hrecF : ¬(fieldsOf env (derefArg t0) = []) →
      ∀ st a, INV st →
        st.parentTypes = registryKey s.targetType t0 :: s.parentTypes →
        st.targetType = s.targetType → CallFacts st a (recurse st a)) :
    CallFacts s (some t0) (goToGraphqlTypeStep env recurse s (some t0)) := by
  rw [step_main_eq env recurse s t0 hk hn hlk hmem]
  have hinv1 : INV ({ s with
      parentTypes := registryKey s.targetType t0 :: s.parentTypes,
      level := s.level + 1 } : TM) := by
    obtain ⟨h1, h2, h3, h4, h5, _, _⟩ := hinv
    exact ⟨h1, h2, h3, h4,
      fun k τ hk2 hst => List.mem_cons_of_mem _ (h5 k τ hk2 hst),
      fun h0 => absurd h0 (Nat.succ_ne_zero _),
      fun h0 => absurd h0 (Nat.succ_ne_zero _)⟩
  have hkey : ∃ flds s2, (fieldsOf env (derefArg t0)).foldl
      (marshalField env (fun st f => goFieldToGraphqlTypeAux env recurse st f))
      ([], { s with
             parentTypes := registryKey s.targetType t0 :: s.parentTypes,
             level := s.level + 1 }) = (flds, s2) ∧
      INV s2 ∧
      StateMono { s with
        parentTypes := registryKey s.targetType t0 :: s.parentTypes,
        level := s.level + 1 } s2 ∧
      (flds = [] → NoNewStub { s with
        parentTypes := registryKey s.targetType t0 :: s.parentTypes,
        level := s.level + 1 } s2) ∧
      ((flds.map Prod.fst).Nodup) := by
    by_cases hFS : fieldsOf env (derefArg t0) = []
    · rw [hFS]
      exact ⟨[], _, rfl, hinv1, stateMono_refl _, fun _ => noNewStub_refl _,
        List.nodup_nil⟩
    · have hrec2 := hrecF hFS
      have hcl : ∀ st g, INV st →
          st.parentTypes = registryKey s.targetType t0 :: s.parentTypes →
          st.targetType = s.targetType →
          FieldFacts st ((fun st f => goFieldToGraphqlTypeAux env recurse st f) st g) := by
        intro st g hinvst hp ht
        have hlvlne : ¬(st.level = 0) := by
          intro h0
          rw [hinvst.2.2.2.2.2.1 h0] at hp
          cases hp
        apply goFieldFacts env recurse st g hinvst
        intro a
        have hCF := hrec2 st a hinvst hp ht
        exact ⟨hCF.1, hCF.2.1 hlvlne, hCF.2.2.2.2.2.2.2.2.1⟩
      rcases foldFacts env (fun st f => goFieldToGraphqlTypeAux env recurse st f)
        (registryKey s.targetType t0 :: s.parentTypes) s.targetType hcl
        (fieldsOf env (derefArg t0))
        ([], { s with
               parentTypes := registryKey s.targetType t0 :: s.parentTypes,
               level := s.level + 1 }) hinv1 rfl rfl with ⟨i1, i2, _, i4⟩
      have i5 := fold_marshal_nodup env
        (fun st f => goFieldToGraphqlTypeAux env recurse st f)
        (fieldsOf env (derefArg t0))
        ([], { s with
               parentTypes := registryKey s.targetType t0 :: s.parentTypes,
               level := s.level + 1 }) List.nodup_nil
      exact ⟨_, _, rfl, i1, i2, fun he => i4 he, i5⟩
  rcases hkey with ⟨flds, s2, hres, hinv2, hmono12, hNNSfn, hndflds⟩
  have hp2 : s2.parentTypes = registryKey s.targetType t0 :: s.parentTypes :=
    hmono12.2.1
  have hl2 : s2.level = s.level + 1 := hmono12.1
  have ht2 : s2.targetType = s.targetType := hmono12.2.2.1
  have hn2 : s.nextId ≤ s2.nextId := hmono12.2.2.2.1
  have hM5s : ∀ k τ, lookupA s.graphqlTypes k = some τ → refIsStub s.heap τ = false →
      lookupA s2.graphqlTypes k = some τ ∧ refIsStub s2.heap τ = false :=
    hmono12.2.2.2.2.1
  have hM6s : ∀ k, (lookupA s.graphqlTypes k).isSome = true →
      (lookupA s2.graphqlTypes k).isSome = true := hmono12.2.2.2.2.2.1
  have hM7s : ∀ id, (lookupA s.heap id).isSome = true →
      shapeAt s2.heap id = shapeAt s.heap id := hmono12.2.2.2.2.2.2.1
  have hM8s : ∀ k, k ∈ s.parentTypes → lookupA s.graphqlTypes k = none →
      ∀ τ2, lookupA s2.graphqlTypes k = some τ2 → refIsStub s2.heap τ2 = true := by
    intro k hkp hnone τ2 h2
    exact hmono12.2.2.2.2.2.2.2.1 k (List.mem_cons_of_mem _ hkp) hnone τ2 h2
  have hM9s : ∀ k, k ∈ s.parentTypes → ∀ τ, lookupA s.graphqlTypes k = some τ →
      refIsStub s.heap τ = true →
      ∀ τ2, lookupA s2.graphqlTypes k = some τ2 → refIsStub s2.heap τ2 = true := by
    intro k hkp τ h1 hst τ2 h2
    exact hmono12.2.2.2.2.2.2.2.2 k (List.mem_cons_of_mem _ hkp) τ h1 hst τ2 h2
  simp only [processFields]
  rw [hres]
  by_cases hflds : flds = []
  · -- empty field map: EmptyRecordError exit
    subst hflds
    simp only [List.isEmpty_nil, if_true]
    have hNNS12 := hNNSfn rfl
    have hSNnone : lookupA s2.graphqlTypes (registryKey s.targetType t0) = none := by
      cases hx : lookupA s2.graphqlTypes (registryKey s.targetType t0) with
      | none => rfl
      | some τ2 =>
          exfalso
          have hstub := hmono12.2.2.2.2.2.2.2.1 (registryKey s.targetType t0)
            (List.mem_cons_self _ _) hlk τ2 hx
          have hnostub := hNNS12 (registryKey s.targetType t0) hlk τ2 hx
          rw [hnostub] at hstub
          cases hstub
    have hSN : ∀ τ2,
        lookupA s2.graphqlTypes (registryKey s.targetType t0) = some τ2 →
        refIsStub s2.heap τ2 = false := by
      intro τ2 h2
      rw [hSNnone] at h2
      cases h2
    rcases unwind_facts s s2 (registryKey s.targetType t0) hinv hinv2 hmem hp2 hl2
      ht2 hn2 hM5s hM6s hM7s hM8s hM9s hSN with ⟨hmonoU, hinvU, hregU, hrefU⟩
    apply callFacts_of_mono _ _ _ hinvU hmonoU
    · intro e _
      intro k hnone τ2 hsome
      rw [hregU] at hsome
      have hf := hNNS12 k hnone τ2 hsome
      rw [hrefU]
      exact hf
    · intro t1 e harg _ _
      injection harg with ht1
      subst ht1
      rw [hregU]
      exact hSNnone
  · -- non-empty field map: allocate, register, unwind
    have hie : flds.isEmpty = false := by
      cases flds with
      | nil => exact absurd rfl hflds
      | cons a as => rfl
    simp only [hie, Bool.false_eq_true, if_false]
    have hfresh2 : lookupA s2.heap s2.nextId = none :=
      heapFresh_none_of_ge s2 hinv2.1 s2.nextId (le_refl _)
    obtain ⟨hfr2, hlive2, hnamed2, hnd2, hguard2, _, _⟩ := hinv2
    have hinv3 : INV ({ s2 with
        heap := insertA s2.heap s2.nextId
          { name := registryKey s.targetType t0,
            isInput := s2.targetType == .input, isStub := false, fields := flds },
        nextId := s2.nextId + 1,
        graphqlTypes := insertA s2.graphqlTypes (registryKey s.targetType t0)
          (GType.ref s2.nextId) } : TM) := by
      refine ⟨?_, ?_, ?_, ?_, ?_, ?_, ?_⟩
      · intro id hs
        by_cases hid : s2.nextId = id
        · subst hid
          exact Nat.lt_succ_self _
        · rw [show (lookupA (insertA s2.heap s2.nextId _) id) = lookupA s2.heap id from
            lookupA_insertA_ne _ _ _ _ hid] at hs
          exact Nat.lt_succ_of_lt (hfr2 id hs)
      · intro k τ hkτ
        by_cases hks : registryKey s.targetType t0 = k
        · subst hks
          rw [lookupA_insertA_self] at hkτ
          injection hkτ with he
          subst he
          exact ⟨s2.nextId, rfl, by simp [lookupA_insertA_self]⟩
        · rw [lookupA_insertA_ne _ _ _ _ hks] at hkτ
          rcases hlive2 k τ hkτ with ⟨id2, hτ, hsome⟩
          exact ⟨id2, hτ, lookupA_insertA_isSome _ _ _ _ hsome⟩
      · intro id o hlo hstub
        by_cases hid : s2.nextId = id
        · subst hid
          rw [lookupA_insertA_self] at hlo
          injection hlo with he
          subst he
          cases hstub
        · rw [lookupA_insertA_ne _ _ _ _ hid] at hlo
          exact hnamed2 id o hlo hstub
      · intro id o hlo
        by_cases hid : s2.nextId = id
        · subst hid
          rw [lookupA_insertA_self] at hlo
          injection hlo with he
          subst he
          exact hndflds
        · rw [lookupA_insertA_ne _ _ _ _ hid] at hlo
          exact hnd2 id o hlo
      · intro k τ hkτ hstub
        by_cases hks : registryKey s.targetType t0 = k
        · subst hks
          rw [lookupA_insertA_self] at hkτ
          injection hkτ with he
          subst he
          simp [refIsStub, lookupA_insertA_self] at hstub
        · rw [lookupA_insertA_ne _ _ _ _ hks] at hkτ
          rcases hlive2 k τ hkτ with ⟨id2, hτ, hsome⟩
          subst hτ
          have hne : ∀ id3, (GType.ref id2 : GType) = GType.ref id3 →
              ¬(s2.nextId = id3) := by
            intro id3 h3
            injection h3 with h4
            subst h4
            intro he
            rw [← he] at hsome
            rw [hfresh2] at hsome
            cases hsome
          rw [refIsStub_insert_fresh _ _ _ _ hne] at hstub
          exact hguard2 k _ hkτ hstub
      · intro h0
        exact absurd (hl2.symm.trans h0) (Nat.succ_ne_zero _)
      · intro h0
        exact absurd (hl2.symm.trans h0) (Nat.succ_ne_zero _)
    have hXM5 : ∀ k τ, lookupA s.graphqlTypes k = some τ →
        refIsStub s.heap τ = false →
        lookupA (insertA s2.graphqlTypes (registryKey s.targetType t0)
          (GType.ref s2.nextId)) k = some τ ∧
        refIsStub (insertA s2.heap s2.nextId
          { name := registryKey s.targetType t0,
            isInput := s2.targetType == .input, isStub := false,
            fields := flds }) τ = false := by
      intro k τ h1 h2
      rcases hM5s k τ h1 h2 with ⟨h3, h4⟩
      have hks : ¬(registryKey s.targetType t0 = k) := by
        intro he
        rw [← he] at h1
        rw [hlk] at h1
        cases h1
      rcases hlive2 k τ h3 with ⟨id2, hτ, hsome⟩
      subst hτ
      have hne : ∀ id3, (GType.ref id2 : GType) = GType.ref id3 →
          ¬(s2.nextId = id3) := by
        intro id3 h3b
        injection h3b with h4b
        subst h4b
        intro he
        rw [← he] at hsome
        rw [hfresh2] at hsome
        cases hsome
      constructor
      · rw [lookupA_insertA_ne _ _ _ _ hks]
        exact h3
      · rw [refIsStub_insert_fresh _ _ _ _ hne]
        exact h4
    have hSN3 : ∀ τ2, lookupA (insertA s2.graphqlTypes
        (registryKey s.targetType t0) (GType.ref s2.nextId))
        (registryKey s.targetType t0) = some τ2 →
        refIsStub (insertA s2.heap s2.nextId
          { name := registryKey s.targetType t0,
            isInput := s2.targetType == .input, isStub := false,
            fields := flds }) τ2 = false := by
      intro τ2 h2
      rw [lookupA_insertA_self] at h2
      injection h2 with he
      subst he
      simp [refIsStub, lookupA_insertA_self]
    rcases unwind_facts s ({ s2 with
        heap := insertA s2.heap s2.nextId
          { name := registryKey s.targetType t0,
            isInput := s2.targetType == .input, isStub := false, fields := flds },
        nextId := s2.nextId + 1,
        graphqlTypes := insertA s2.graphqlTypes (registryKey s.targetType t0)
          (GType.ref s2.nextId) } : TM) (registryKey s.targetType t0)
      hinv hinv3 hmem hp2 hl2 ht2 (le_trans hn2 (Nat.le_succ _)) hXM5
      (fun k h1 => lookupA_insertA_isSome _ _ _ _ (hM6s k h1))
      (by
        intro id h1
        have h2 : (lookupA s2.heap id).isSome = true := by
          rw [shape_isSome s.heap s2.heap id (hM7s id h1)]
          exact h1
        have hne : ¬(s2.nextId = id) := by
          intro he
          rw [← he] at h2
          rw [hfresh2] at h2
          cases h2
        exact (shapeAt_insertA_other _ _ _ _ hne).trans (hM7s id h1))
      (by
        intro k hkp hnone τ2 h2
        have hks : ¬(registryKey s.targetType t0 = k) := by
          intro he
          rw [← he] at hkp
          exact hmem hkp
        rw [lookupA_insertA_ne _ _ _ _ hks] at h2
        exact refIsStub_true_insert _ _ _ hfresh2 τ2 (hM8s k hkp hnone τ2 h2))
      (by
        intro k hkp τ h1 hst τ2 h2
        have hks : ¬(registryKey s.targetType t0 = k) := by
          intro he
          rw [← he] at hkp
          exact hmem hkp
        rw [lookupA_insertA_ne _ _ _ _ hks] at h2
        exact refIsStub_true_insert _ _ _ hfresh2 τ2 (hM9s k hkp τ h1 hst τ2 h2))
      hSN3 with ⟨hmonoU, hinvU, _, _⟩
    apply callFacts_of_mono _ _ _ hinvU hmonoU
    · intro e he
      exact Except.noConfusion he
    · intro t1 e _ he
      exact absurd he (by simp)

theorem goCallFacts (env : Env) :
    ∀ (fuel : Nat) (s : TM) (arg : Option GoTy), INV s → measureTM env s < fuel →
      CallFacts s arg (goToGraphqlType env fuel s arg) := by
  intro fuel
  induction fuel with
  | zero => intro s arg _ h; exact absurd h (Nat.not_lt_zero _)
  | succ n ih =>
      intro s arg hinv hμ
      show CallFacts s arg (goToGraphqlTypeStep env (goToGraphqlType env n) s arg)
      cases arg with
      | none =>
          rw [step_none_eq]
          exact callFacts_same s none _ hinv
      | some t0 =>
          by_cases hk : (derefArg t0).kind = .struct
          · by_cases hn : (derefArg t0).structName = []
            · rw [step_emptyname_eq env _ s t0 hk hn]
              exact callFacts_same s _ _ hinv
            · cases hc : lookupA s.graphqlTypes (registryKey s.targetType t0) with
              | some cached =>
                  rw [step_memo_eq env _ s t0 cached hk hn hc]
                  exact callFacts_same s _ _ hinv
              | none =>
                  by_cases hmem : registryKey s.targetType t0 ∈ s.parentTypes
                  · exact stub_branch_callFacts env _ s t0 hinv hk hn hc hmem
                  · apply step_main_facts env _ s t0 hinv hk hn hc hmem
                    intro hFS st a hinvst hp ht
                    have hbase := fieldsOf_ne_nil_mem env (derefArg t0) hFS
                    have hkey : registryKey s.targetType t0 =
                        keyFor s.targetType (derefArg t0).structName := rfl
                    have hμst : measureTM env st < n := by
                      rw [measureTM_pins env st
                        (registryKey s.targetType t0 :: s.parentTypes) s.targetType hp ht]
                      have hμs : measureTM env s = ((env.structs.map Prod.fst).filter
                          (fun nm =>
                            decide (¬(keyFor s.targetType nm ∈ s.parentTypes)))).length :=
                        measureTM_pins env s s.parentTypes s.targetType rfl rfl
                      have hlt := measure_push_lt env s.targetType s.parentTypes
                        (derefArg t0).structName hbase (by rw [← hkey]; exact hmem)
                      rw [hkey]
                      exact Nat.lt_of_lt_of_le hlt
                        (by rw [← hμs]; exact Nat.lt_succ_iff.mp hμ)
                    exact ih st a hinvst hμst
          · rw [step_notstruct_eq env _ s t0 hk]
            exact callFacts_same s _ _ hinv

theorem goField_congr (env : Env) (recurse1 recurse2 : TM → Option GoTy → Res)
    (st : TM) (g : StructField) (hfun : recurse1 st = recurse2 st) :
    goFieldToGraphqlTypeAux env recurse1 st g =
      goFieldToGraphqlTypeAux env recurse2 st g := by
  unfold goFieldToGraphqlTypeAux faceToAnyAux
  rw [hfun]

theorem marshalField_congr (env : Env) (c1 c2 : TM → StructField → Res)
    (acc : List (Str × GField) × TM) (f : StructField)
    (h : c1 acc.2 f = c2 acc.2 f) :
    marshalField env c1 acc f = marshalField env c2 acc f := by
  unfold marshalField
  rw [h]

theorem foldCongr (env : Env) (c1 c2 : TM → StructField → Res)
    (P : List Str) (M : TargetType)
    (hcl : ∀ st g, INV st → st.parentTypes = P → st.targetType = M →
      FieldFacts st (c1 st g))
    (hag : ∀ st g, INV st → st.parentTypes = P → st.targetType = M →
      c1 st g = c2 st g) :
    ∀ (fs : List StructField) (acc : List (Str × GField) × TM),
      INV acc.2 → acc.2.parentTypes = P → acc.2.targetType = M →
      fs.foldl (marshalField env c1) acc = fs.foldl (marshalField env c2) acc := by
  intro fs
  induction fs with
  | nil => intro acc _ _ _; rfl
  | cons g gs ih =>
      intro acc hinv hp ht
      rw [List.foldl_cons, List.foldl_cons]
      have hstep : marshalField env c1 acc g = marshalField env c2 acc g :=
        marshalField_congr env c1 c2 acc g (hag acc.2 g hinv hp ht)
      rw [← hstep]
      have hF := hcl acc.2 g hinv hp ht
      rcases marshalField_cases env c1 acc g with
        ⟨e, s1, hclr, hstep2⟩ | ⟨t1, s1, fdnew, hclr, hstep2⟩
      · rw [hclr] at hF
        rw [hstep2]
        exact ih (acc.1, s1) hF.1 (hF.2.1.2.1.trans hp) (hF.2.1.2.2.1.trans ht)
      · rw [hclr] at hF
        rw [hstep2]
        exact ih (insertA acc.1 g.name fdnew, s1) hF.1 (hF.2.1.2.1.trans hp)
          (hF.2.1.2.2.1.trans ht)

theorem goStepStable (env : Env) :
    ∀ (n : Nat) (s : TM) (arg : Option GoTy), INV s → measureTM env s < n →
      goToGraphqlType env (n + 1) s arg = goToGraphqlType env n s arg := by
  intro n
  induction n with
  | zero => intro s arg _ h; exact absurd h (Nat.not_lt_zero _)
  | succ n ih =>
      intro s arg hinv hμ
      show goToGraphqlTypeStep env (goToGraphqlType env (n + 1)) s arg =
           goToGraphqlTypeStep env (goToGraphqlType env n) s arg
      cases arg with
      | none => rw [step_none_eq, step_none_eq]
      | some t0 =>
          by_cases hk : (derefArg t0).kind = .struct
          · by_cases hn : (derefArg t0).structName = []
            · rw [step_emptyname_eq env _ s t0 hk hn,
                step_emptyname_eq env _ s t0 hk hn]
            · cases hc : lookupA s.graphqlTypes (registryKey s.targetType t0) with
              | some cached =>
                  rw [step_memo_eq env _ s t0 cached hk hn hc,
                    step_memo_eq env _ s t0 cached hk hn hc]
              | none =>
                  by_cases hmem : registryKey s.targetType t0 ∈ s.parentTypes
                  · rw [step_stub_eq env _ s t0 hk hn hc hmem,
                      step_stub_eq env _ s t0 hk hn hc hmem]
                  · rw [step_main_eq env _ s t0 hk hn hc hmem,
                      step_main_eq env _ s t0 hk hn hc hmem]
                    by_cases hFS : fieldsOf env (derefArg t0) = []
                    · rw [hFS]
                      rfl
                    · have hbase := fieldsOf_ne_nil_mem env (derefArg t0) hFS
                      have hkey : registryKey s.targetType t0 =
                          keyFor s.targetType (derefArg t0).structName := rfl
                      have hμpin : ∀ st : TM,
                          st.parentTypes = registryKey s.targetType t0 :: s.parentTypes →
                          st.targetType = s.targetType → measureTM env st < n := by
                        intro st hp ht
                        rw [measureTM_pins env st
                          (registryKey s.targetType t0 :: s.parentTypes) s.targetType hp ht]
                        have hμs : measureTM env s = ((env.structs.map Prod.fst).filter
                            (fun nm =>
                              decide (¬(keyFor s.targetType nm ∈ s.parentTypes)))).length :=
                          measureTM_pins env s s.parentTypes s.targetType rfl rfl
                        have hlt := measure_push_lt env s.targetType s.parentTypes
                          (derefArg t0).structName hbase (by rw [← hkey]; exact hmem)
                        rw [hkey]
                        exact Nat.lt_of_lt_of_le hlt
                          (by rw [← hμs]; exact Nat.lt_succ_iff.mp hμ)
                      have heq : processFields env
                          (fun st f => goFieldToGraphqlTypeAux env
                            (goToGraphqlType env (n + 1)) st f)
                          { s with
                            parentTypes := registryKey s.targetType t0 :: s.parentTypes,
                            level := s.level + 1 }
                          (fieldsOf env (derefArg t0)) =
                        processFields env
                          (fun st f => goFieldToGraphqlTypeAux env
                            (goToGraphqlType env n) st f)
                          { s with
                            parentTypes := registryKey s.targetType t0 :: s.parentTypes,
                            level := s.level + 1 }
                          (fieldsOf env (derefArg t0)) := by
                        simp only [processFields]
                        apply foldCongr env _ _
                          (registryKey s.targetType t0 :: s.parentTypes) s.targetType
                        · intro st g hinvst hp ht
                          have hlvlne : ¬(st.level = 0) := by
                            intro h0
                            rw [hinvst.2.2.2.2.2.1 h0] at hp
                            cases hp
                          apply goFieldFacts env _ st g hinvst
                          intro a
                          have hCF := goCallFacts env (n + 1) st a hinvst
                            (Nat.lt_succ_of_lt (hμpin st hp ht))
                          exact ⟨hCF.1, hCF.2.1 hlvlne, hCF.2.2.2.2.2.2.2.2.1⟩
                        · intro st g hinvst hp ht
                          exact goField_congr env _ _ st g
                            (funext (fun a => ih st a hinvst (hμpin st hp ht)))
                        · exact ⟨hinv.1, hinv.2.1, hinv.2.2.1, hinv.2.2.2.1,
                            fun k τ hk2 hst =>
                              List.mem_cons_of_mem _ (hinv.2.2.2.2.1 k τ hk2 hst),
                            fun h0 => absurd h0 (Nat.succ_ne_zero _),
                            fun h0 => absurd h0 (Nat.succ_ne_zero _)⟩
                        · rfl
                        · rfl
                      rw [heq]
          · rw [step_notstruct_eq env _ s t0 hk, step_notstruct_eq env _ s t0 hk]

theorem goStable (env : Env) (s : TM) (arg : Option GoTy) (hinv : INV s) :
    ∀ n m, measureTM env s < n → measureTM env s < m →
      goToGraphqlType env n s arg = goToGraphqlType env m s arg := by
  have aux : ∀ (k n : Nat), measureTM env s < n →
      goToGraphqlType env (n + k) s arg = goToGraphqlType env n s arg := by
    intro k
    induction k with
    | zero => intro n _; rfl
    | succ k ihk =>
        intro n hn
        have h1 : n + (k + 1) = (n + k) + 1 := rfl
        rw [h1, goStepStable env (n + k) s arg hinv
          (Nat.lt_of_lt_of_le hn (Nat.le_add_right n k))]
        exact ihk n hn
  intro n m hn hm
  rcases Nat.le_total n m with h | h
  · have h2 : m = n + (m - n) := (Nat.add_sub_cancel' h).symm
    rw [h2, aux (m - n) n hn]
  · have h2 : n = m + (n - m) := (Nat.add_sub_cancel' h).symm
    rw [h2, aux (n - m) m hm]

/-- Claim C1 counterexample: in the self-referential record R whose self
reference sits under pointer-to-slice with a required tag, the Self
field holds the stub reference NonNull(List(RStub)) during compilation
(visible in a nested-level run, where the patch pass is suppressed), yet
after the root call returns the field is DELETED rather than resolved to
the canonical R object re-wrapped in the same List/NonNull wrapping: the
patch pass extracts the base name from the rendering "[RStub]!", whose
last "Stub" occurrence yields the garbled base "[R", finds nothing
registered under it, and drops the field. -/
theorem stub_rewrap_counterexample :
    ((lookupA (goToGraphqlType rEnv 3 { TM.initial with level := 1 }
        (some (.structT (s2l ("R"))))).2.heap 1).bind
      (fun o => lookupA o.fields (s2l ("Self")))).map GField.type =
      some (GType.nonNull (GType.list (GType.ref 0))) ∧
    refIsStub (goToGraphqlType rEnv 3 { TM.initial with level := 1 }
        (some (.structT (s2l ("R"))))).2.heap (GType.ref 0) = true ∧
    (goToGraphqlType rEnv 3 TM.initial (some (.structT (s2l ("R"))))).1 =
      .ok (.ref 1) ∧
    lookupA (goToGraphqlType rEnv 3 TM.initial
        (some (.structT (s2l ("R"))))).2.graphqlTypes (s2l ("R")) =
      some (.ref 1) ∧
    (lookupA (goToGraphqlType rEnv 3 TM.initial
        (some (.structT (s2l ("R"))))).2.heap 1).map
      (fun o => lookupA o.fields (s2l ("Self"))) = some none := by
  exact ⟨rfl, rfl, rfl, rfl, rfl⟩

/-- Claim C1 (amended): for every environment (in particular every record
reachable from itself), a root call to the translator terminates: all
fuel bounds above the number of not-yet-in-progress declared structs
give the identical result; and after the outermost call returns, every
entry of the type registry is a live non-stub object none of whose
fields references a Stub object.  (The original claim's further clause
that each stubbed field resolves to the canonical type re-wrapped in its
List/NonNull wrapping is refuted by the counterexample: a
NonNull-of-List stub reference garbles the extracted base name and the
field is deleted instead.) -/
theorem cycle_compile_terminates_and_patches (env : Env) (s : TM) (arg : Option GoTy)
    (fuel fuel2 : Nat) (hinv : INV s) (hroot : s.level = 0)
    (h1 : measureTM env s < fuel) (h2 : measureTM env s < fuel2) :
    goToGraphqlType env fuel s arg = goToGraphqlType env fuel2 s arg ∧
    StubCleanPred (goToGraphqlType env fuel s arg).2 := by
  have hstable := goStable env s arg hinv fuel fuel2 h1 h2
  have hCF := goCallFacts env fuel s arg hinv h1
  refine ⟨hstable, ?_⟩
  have hlvl : (goToGraphqlType env fuel s arg).2.level = 0 := hCF.2.2.1.trans hroot
  exact hCF.1.2.2.2.2.2.2 hlvl

/-- Claim C1 witness: compiling the self-referential Node record from a
fresh mapper terminates (fuel 2 and fuel 3 agree) and leaves a registry
whose entries are stub-free. -/
theorem cycle_compile_terminates_and_patches_witness :
    measureTM nodeEnv TM.initial < 2 ∧ measureTM nodeEnv TM.initial < 3 ∧
    TM.initial.level = 0 ∧
    goToGraphqlType nodeEnv 2 TM.initial (some (.structT (s2l ("Node")))) =
      goToGraphqlType nodeEnv 3 TM.initial (some (.structT (s2l ("Node")))) ∧
    StubCleanPred (goToGraphqlType nodeEnv 2 TM.initial
      (some (.structT (s2l ("Node"))))).2 := by
  have h := cycle_compile_terminates_and_patches nodeEnv TM.initial
    (some (.structT (s2l ("Node")))) 2 3 INV_initial rfl (by decide) (by decide)
  exact ⟨by decide, by decide, rfl, h.1, h.2⟩

/-- Claim C5: a record whose marshalling loop accumulates zero fields
(the code's 0 == numFieldsMarshalled condition, covering both records
with no declared fields and records all of whose declared fields fail
classification) makes the root call fail with EmptyRecordError and
register nothing under its (mode-suffixed) name; and in any parent, a
field whose classification fails is skipped: the marshalling step leaves
the accumulated field map unchanged, so the parent keeps exactly its
remaining fields. -/
theorem empty_record_error_and_parent_skip (env : Env) (fuel : Nat) (s : TM)
    (t : GoTy) (hinv : INV s) (hfuel : measureTM env s < fuel + 1)
    (hk : (derefArg t).kind = .struct)
    (hn : ¬((derefArg t).structName = []))
    (hlk : lookupA s.graphqlTypes (registryKey s.targetType t) = none)
    (hmem : ¬(registryKey s.targetType t ∈ s.parentTypes))
    (hflds : (processFields env
        (fun st f => goFieldToGraphqlTypeAux env (goToGraphqlType env fuel) st f)
        { s with
          parentTypes := registryKey s.targetType t :: s.parentTypes,
          level := s.level + 1 }
        (fieldsOf env (derefArg t))).1 = []) :
    (goToGraphqlType env (fuel + 1) s (some t)).1 =
      .error (.emptyRecord (registryKey s.targetType t)) ∧
    lookupA (goToGraphqlType env (fuel + 1) s (some t)).2.graphqlTypes
      (registryKey s.targetType t) = none ∧
    (∀ (classify : TM → StructField → Res) (acc : List (Str × GField) × TM)
        (f : StructField) (e : CompErr) (s1 : TM),
      classify acc.2 f = (Except.error e, s1) →
      marshalField env classify acc f = (acc.1, s1)) := by
  have herr : (goToGraphqlType env (fuel + 1) s (some t)).1 =
      .error (.emptyRecord (registryKey s.targetType t)) := by
    show (goToGraphqlTypeStep env (goToGraphqlType env fuel) s (some t)).1 = _
    rw [step_main_eq env _ s t hk hn hlk hmem]
    rcases hres : processFields env
        (fun st f => goFieldToGraphqlTypeAux env (goToGraphqlType env fuel) st f)
        { s with
          parentTypes := registryKey s.targetType t :: s.parentTypes,
          level := s.level + 1 }
        (fieldsOf env (derefArg t)) with ⟨flds, s2⟩
    rw [hres] at hflds
    dsimp only at hflds
    subst hflds
    rfl
  have hCF := goCallFacts env (fuel + 1) s (some t) hinv hfuel
  refine ⟨herr, ?_, ?_⟩
  · exact hCF.2.2.2.2.2.2.2.2.2 t (.emptyRecord (registryKey s.targetType t))
      rfl herr hlk
  · intro classify acc f e s1 hcl
    simp [marshalField, hcl]

/-- Claim C5 witness: the record Wrap has one declared field, but its
classification fails (it references the empty record), so the
marshalling loop accumulates zero fields: the root call fails with
EmptyRecordError and registers nothing under Wrap; and compiling the
Parent record that references the empty record succeeds, silently
dropping field A and keeping field B. -/
theorem empty_record_error_and_parent_skip_witness :
    measureTM failEnv TM.initial < 3 ∧
    ¬(fieldsOf failEnv (derefArg (GoTy.structT (s2l ("Wrap")))) = []) ∧
    (processFields failEnv
      (fun st f => goFieldToGraphqlTypeAux failEnv (goToGraphqlType failEnv 2) st f)
      { TM.initial with
        parentTypes := registryKey TM.initial.targetType
          (GoTy.structT (s2l ("Wrap"))) :: TM.initial.parentTypes,
        level := TM.initial.level + 1 }
      (fieldsOf failEnv (derefArg (GoTy.structT (s2l ("Wrap")))))).1 = [] ∧
    (goToGraphqlType failEnv 3 TM.initial (some (.structT (s2l ("Wrap"))))).1 =
      .error (.emptyRecord (s2l ("Wrap"))) ∧
    lookupA (goToGraphqlType failEnv 3 TM.initial
      (some (.structT (s2l ("Wrap"))))).2.graphqlTypes (s2l ("Wrap")) = none ∧
    (goToGraphqlType emptyEnv 4 TM.initial (some (.structT (s2l ("Parent"))))).1 =
      .ok (.ref 0) ∧
    (lookupA (goToGraphqlType emptyEnv 4 TM.initial
        (some (.structT (s2l ("Parent"))))).2.heap 0).map
      (fun o => ((lookupA o.fields (s2l ("A"))).isSome,
        (lookupA o.fields (s2l ("B"))).isSome)) = some (false, true) := by
  have h := empty_record_error_and_parent_skip failEnv 2 TM.initial
    (.structT (s2l ("Wrap"))) INV_initial (by decide) (by decide) (by decide)
    rfl (by decide) rfl
  exact ⟨by decide, by decide, rfl, h.1, h.2.1, rfl, rfl⟩

end GoGraphql
